import Mathlib

/-!
# The C boundary of the Arcade Learning Environment (`ale_c_interface.cpp`)

A shallow embedding of the flat, handle-based C interface.  The wrapped C++
engine (`ale::ALEInterface`, declared in `ale_interface.hpp`) is not among the
sources transcribed here, so it enters as a record of methods over an abstract
engine state; every boundary function below is a line-by-line transcription of
the function of the same name in `src/ale/ale_c_interface.cpp`.

Conventions of the embedding:
* a pointer is an `Option`: `none` is the null pointer, `some x` points at `x`;
* an output buffer is the memory seen from the pointer, a map from index to
  element, and a boundary function returns the memory after the call;
* C `int` values are integers, `size_t` values are naturals, and the
  conversions between them are written out (`static_cast_int`,
  `static_cast_size_t`);
* a C++ exception thrown inside a `try` block is an `Except.error` of the
  engine method called there (a temporary that cannot be allocated inside the
  block has the same effect as the method throwing);
* the outcome of `new(std::nothrow)` is an explicit argument `heap_ok`;
* every call of an engine method is recorded, in order, in `Out.calls`, and
  every diagnostic line written to `std::cerr` in `Out.stderr`.
-/

namespace ALE

/-! ## Basic types -/

/-- The header's `byte_t` (`uint8_t`). -/
abbrev byte_t := Fin 256

/-- A C `char`, kept as its byte value; `0` is the terminator `'\0'`. -/
abbrev c_char := Fin 256

/-- The contents of a `std::string` (or of a C string, without its terminator). -/
abbrev std_string := List c_char

/-- The value of `std::numeric_limits<int>::min()`. -/
def INT_MIN : Int := -2147483648

/-- The value of `std::numeric_limits<int>::max()`. -/
def INT_MAX : Int := 2147483647

/-- The conversion `static_cast<int>(n)` of a `size_t`: reduction modulo `2^32`
into the two's-complement range of a 32-bit `int`. -/
def static_cast_int (n : Nat) : Int :=
  if n % 4294967296 < 2147483648 then ((n % 4294967296 : Nat) : Int)
  else ((n % 4294967296 : Nat) : Int) - 4294967296

/-- The conversion `static_cast<size_t>(i)` of an `int`: reduction modulo `2^64`. -/
def static_cast_size_t (i : Int) : Nat :=
  (i % 18446744073709551616).toNat

/-- A 32-bit IEEE float (`float`, `reward_t`), kept as its bit pattern: the
boundary never computes on floats, it only passes them through. -/
structure c_float where
  bits : Nat
deriving DecidableEq, Repr

/-- The value of `std::numeric_limits<float>::quiet_NaN()`. -/
def quiet_NaN : c_float := ⟨0x7FC00000⟩

/-- Whether a bit pattern is a NaN: exponent all ones, mantissa non-zero. -/
def c_float.isNaN (f : c_float) : Bool :=
  (f.bits / 8388608) % 256 == 255 && f.bits % 8388608 != 0

/-- What a `try` block can catch: a `std::exception` with its `what()` text, or
anything else (the `catch (...)` arm). -/
inductive Thrown where
  | std_exception (what : String)
  | other
deriving DecidableEq, Repr

/-- The line the `ALE_CATCH` arms write to `std::cerr`. -/
def ALE_CATCH_message : Thrown → String
  | .std_exception what => "ALE C Interface Error: " ++ what
  | .other => "ALE C Interface Error: Unknown exception caught."

/-! ## Memory behind an output pointer -/

/-- The memory behind a non-null pointer: element `i` is `p[i]`. -/
abbrev Mem (β : Type) := Nat → β

/-- The assignment `p[i] = v`. -/
def Mem.store {β : Type} (m : Mem β) (i : Nat) (v : β) : Mem β :=
  fun j => if j = i then v else m j

/-- The call `std::memcpy(dst, src, n)`: the first `n` elements of `dst` become
those of `src`; the others keep their value.  (Reading `src` past its end is
undefined in C; the embedding reads `0` there.) -/
def memcpy (dst : Mem (Fin 256)) (src : List (Fin 256)) (n : Nat) : Mem (Fin 256) :=
  fun j => if j < n then src.getD j 0 else dst j

/-- The pointer `s.c_str()`: the characters followed by the terminator. -/
def c_str (s : std_string) : std_string := s ++ [0]

/-- The C `strlen` of `s.c_str()`: the number of characters before the first `'\0'`. -/
def strlen (s : std_string) : Nat :=
  (s.takeWhile (fun c => c != 0)).length

/-- The call `std::strncpy(dst, src.c_str(), n)`: copies the characters of
`src` up to its first `'\0'`, at most `n` of them, and fills what is left of
the `n` positions with `'\0'`. -/
def strncpy (dst : Mem c_char) (src : std_string) (n : Nat) : Mem c_char :=
  fun j => if j < n then (if j < strlen src then src.getD j 0 else 0) else dst j

/-- The loop `for (size_t i = 0; i < n; ++i) buffer[i] = static_cast<int>(v[i]);`
of the four list queries. -/
def copy_loop (buffer : Mem Int) (v : List Int) (n : Nat) : Mem Int :=
  (List.range n).foldl (fun m i => m.store i (v.getD i 0)) buffer

/-! ## The wrapped engine -/

/-- The result of `getScreen()`, of which the boundary reads `width()` and `height()`. -/
structure ALEScreen where
  width : Int
  height : Int
deriving DecidableEq, Repr

/-- The result of `getRAM()`, an `ale::ALERAM`, of which the boundary calls
`size()` and `get(i)`.  The accessor `get` belongs to the engine and is taken
as it is, for every index: what it yields at an index past the end is the
engine's business, and nothing here makes it `0`. -/
structure ALERAM where
  size : Nat
  get : Nat → byte_t

/-- The RAM `ram` with the byte `v` at index `i` and every other byte as before. -/
def ALERAM.set (ram : ALERAM) (i : Nat) (v : byte_t) : ALERAM :=
  ⟨ram.size, fun j => if j = i then v else ram.get j⟩

/-- The RAM that holds the bytes of `l` and whose accessor yields `255` past
the end. -/
def ALERAM.ofList (l : List byte_t) : ALERAM :=
  ⟨l.length, fun i => l.getD i 255⟩

/-- The engine methods the boundary calls, with their arguments. -/
inductive Call where
  | ctor
  | dtor
  | dtor_state
  | dtor_exporter
  | getStringInplace (key : std_string)
  | getInt (key : std_string)
  | getBool (key : std_string)
  | getFloat (key : std_string)
  | setString (key value : std_string)
  | setInt (key : std_string) (value : Int)
  | setBool (key : std_string) (value : Bool)
  | setFloat (key : std_string) (value : c_float)
  | loadROM (rom_file_path : std_string)
  | loadROM_default
  | act (action : Int)
  | act_strength (action : Int) (paddle_strength : c_float)
  | game_over (with_truncation : Bool)
  | game_truncated
  | reset_game
  | getAvailableModes
  | setMode (mode : Int)
  | getMode
  | getAvailableDifficulties
  | setDifficulty (difficulty : Int)
  | getDifficulty
  | getLegalActionSet
  | getMinimalActionSet
  | getFrameNumber
  | lives
  | getEpisodeFrameNumber
  | getScreen
  | getScreenGrayscale
  | getScreenRGB
  | getAudio
  | getRAM
  | setRAM (memory_index : Nat) (value : byte_t)
  | cloneState (include_rng : Bool)
  | restoreState
  | cloneSystemState
  | saveScreenPNG (filename : std_string)
  | createScreenExporter (path : std_string)
  | isSupportedROM (rom_file_path : std_string)
  | welcomeMessage
deriving DecidableEq, Repr

/-- The public contract of `ale::ALEInterface`, the external engine, over an
engine state `σ`, a snapshot type `ς` (`ale::ALEState`) and an exporter type
`χ` (`ale::ScreenExporter`).  A query returns its value or throws; a method
that changes the engine returns, besides, the engine state it leaves behind
(also when it throws).  The engine's enumerations (actions, modes,
difficulties) are taken by their integer value. -/
structure ALEInterface (σ ς χ : Type) where
  ctor : Except Thrown σ
  getStringInplace : σ → std_string → Except Thrown std_string
  getInt : σ → std_string → Except Thrown Int
  getBool : σ → std_string → Except Thrown Bool
  getFloat : σ → std_string → Except Thrown c_float
  setString : σ → std_string → std_string → Except Thrown Unit × σ
  setInt : σ → std_string → Int → Except Thrown Unit × σ
  setBool : σ → std_string → Bool → Except Thrown Unit × σ
  setFloat : σ → std_string → c_float → Except Thrown Unit × σ
  loadROM : σ → std_string → Except Thrown Unit × σ
  loadROM_default : σ → Except Thrown Unit × σ
  act : σ → Int → Except Thrown c_float × σ
  act_strength : σ → Int → c_float → Except Thrown c_float × σ
  game_over : σ → Bool → Except Thrown Bool
  game_truncated : σ → Except Thrown Bool
  reset_game : σ → Except Thrown Unit × σ
  getAvailableModes : σ → Except Thrown (List Int)
  setMode : σ → Int → Except Thrown Unit × σ
  getMode : σ → Except Thrown Int
  getAvailableDifficulties : σ → Except Thrown (List Int)
  setDifficulty : σ → Int → Except Thrown Unit × σ
  getDifficulty : σ → Except Thrown Int
  getLegalActionSet : σ → Except Thrown (List Int)
  getMinimalActionSet : σ → Except Thrown (List Int)
  getFrameNumber : σ → Except Thrown Int
  lives : σ → Except Thrown Int
  getEpisodeFrameNumber : σ → Except Thrown Int
  getScreen : σ → Except Thrown ALEScreen
  getScreenGrayscale : σ → Except Thrown (List byte_t)
  getScreenRGB : σ → Except Thrown (List byte_t)
  getAudio : σ → Except Thrown (List byte_t)
  getRAM : σ → Except Thrown ALERAM
  setRAM : σ → Nat → byte_t → Except Thrown Unit × σ
  cloneState : σ → Bool → Except Thrown ς
  restoreState : σ → ς → Except Thrown Unit × σ
  saveScreenPNG : σ → std_string → Except Thrown Unit
  createScreenExporter : σ → std_string → Except Thrown (Option χ)
  isSupportedROM : std_string → Except Thrown (Option std_string)
  welcomeMessage : Except Thrown std_string

/-- Modelled from the spec: the engine method `cloneSystemState()`, which is
declared in `ale_interface.hpp` and defined in the engine, neither of which is
among the sources.  The spec (4.6) describes the full-state capture as the
capture "with randomness always included". -/
def ALEInterface.cloneSystemState {σ ς χ : Type} (E : ALEInterface σ ς χ) (a : σ) :
    Except Thrown ς :=
  E.cloneState a true

/-- What a boundary call leaves behind: its return value, the engine behind the
handle after the call (`none` for a null handle), the output buffer after the
call (`none` for a null pointer or an operation without one), the engine
methods it called and the diagnostics it wrote. -/
structure Out (σ β ρ : Type) where
  ret : ρ
  engine : Option σ
  buffer : Option (Mem β)
  calls : List Call
  stderr : List String

/-- The type of the absent buffer of an operation that has none. -/
abbrev NoBuffer := Unit

variable {σ ς χ : Type}

/-! ## Settings functions -/

/-- Source: `ale_getString`. -/
def ale_getString (E : ALEInterface σ ς χ) (ale : Option σ) (key : Option std_string)
    (output_buffer : Option (Mem c_char)) (buffer_size : Nat) : Out σ c_char Int :=
  match ale with
  | none => ⟨-1, none, output_buffer, [], []⟩
  | some a =>
    match key with
    | none => ⟨-1, some a, output_buffer, [], []⟩
    | some k =>
      match E.getStringInplace a k with
      | .ok value =>
        let buffer :=
          match output_buffer with
          | none => none
          | some buf =>
            if buffer_size > 0 then
              let len_to_copy :=
                if value.length ≥ buffer_size then buffer_size - 1 else value.length
              some ((memcpy buf (c_str value) len_to_copy).store len_to_copy 0)
            else some buf
        ⟨static_cast_int value.length, some a, buffer, [.getStringInplace k], []⟩
      | .error ex =>
        ⟨-1, some a, output_buffer, [.getStringInplace k], [ALE_CATCH_message ex]⟩

/-- Source: `ale_getInt`. -/
def ale_getInt (E : ALEInterface σ ς χ) (ale : Option σ) (key : Option std_string) :
    Out σ NoBuffer Int :=
  match ale with
  | none => ⟨INT_MIN, none, none, [], []⟩
  | some a =>
    match key with
    | none => ⟨INT_MIN, some a, none, [], []⟩
    | some k =>
      match E.getInt a k with
      | .ok v => ⟨v, some a, none, [.getInt k], []⟩
      | .error ex => ⟨INT_MIN, some a, none, [.getInt k], [ALE_CATCH_message ex]⟩

/-- Source: `ale_getBool`. -/
def ale_getBool (E : ALEInterface σ ς χ) (ale : Option σ) (key : Option std_string) :
    Out σ NoBuffer Bool :=
  match ale with
  | none => ⟨false, none, none, [], []⟩
  | some a =>
    match key with
    | none => ⟨false, some a, none, [], []⟩
    | some k =>
      match E.getBool a k with
      | .ok v => ⟨v, some a, none, [.getBool k], []⟩
      | .error ex => ⟨false, some a, none, [.getBool k], [ALE_CATCH_message ex]⟩

/-- Source: `ale_getFloat`. -/
def ale_getFloat (E : ALEInterface σ ς χ) (ale : Option σ) (key : Option std_string) :
    Out σ NoBuffer c_float :=
  match ale with
  | none => ⟨quiet_NaN, none, none, [], []⟩
  | some a =>
    match key with
    | none => ⟨quiet_NaN, some a, none, [], []⟩
    | some k =>
      match E.getFloat a k with
      | .ok v => ⟨v, some a, none, [.getFloat k], []⟩
      | .error ex => ⟨quiet_NaN, some a, none, [.getFloat k], [ALE_CATCH_message ex]⟩

/-- Source: `ale_setString`. -/
def ale_setString (E : ALEInterface σ ς χ) (ale : Option σ) (key value : Option std_string) :
    Out σ NoBuffer Int :=
  match ale with
  | none => ⟨-1, none, none, [], []⟩
  | some a =>
    match key with
    | none => ⟨-1, some a, none, [], []⟩
    | some k =>
      match value with
      | none => ⟨-1, some a, none, [], []⟩
      | some v =>
        match E.setString a k v with
        | (.ok _, a1) => ⟨0, some a1, none, [.setString k v], []⟩
        | (.error ex, a1) => ⟨-1, some a1, none, [.setString k v], [ALE_CATCH_message ex]⟩

/-- Source: `ale_setInt`. -/
def ale_setInt (E : ALEInterface σ ς χ) (ale : Option σ) (key : Option std_string)
    (value : Int) : Out σ NoBuffer Int :=
  match ale with
  | none => ⟨-1, none, none, [], []⟩
  | some a =>
    match key with
    | none => ⟨-1, some a, none, [], []⟩
    | some k =>
      match E.setInt a k value with
      | (.ok _, a1) => ⟨0, some a1, none, [.setInt k value], []⟩
      | (.error ex, a1) => ⟨-1, some a1, none, [.setInt k value], [ALE_CATCH_message ex]⟩

/-- Source: `ale_setBool`. -/
def ale_setBool (E : ALEInterface σ ς χ) (ale : Option σ) (key : Option std_string)
    (value : Bool) : Out σ NoBuffer Int :=
  match ale with
  | none => ⟨-1, none, none, [], []⟩
  | some a =>
    match key with
    | none => ⟨-1, some a, none, [], []⟩
    | some k =>
      match E.setBool a k value with
      | (.ok _, a1) => ⟨0, some a1, none, [.setBool k value], []⟩
      | (.error ex, a1) => ⟨-1, some a1, none, [.setBool k value], [ALE_CATCH_message ex]⟩

/-- Source: `ale_setFloat`. -/
def ale_setFloat (E : ALEInterface σ ς χ) (ale : Option σ) (key : Option std_string)
    (value : c_float) : Out σ NoBuffer Int :=
  match ale with
  | none => ⟨-1, none, none, [], []⟩
  | some a =>
    match key with
    | none => ⟨-1, some a, none, [], []⟩
    | some k =>
      match E.setFloat a k value with
      | (.ok _, a1) => ⟨0, some a1, none, [.setFloat k value], []⟩
      | (.error ex, a1) => ⟨-1, some a1, none, [.setFloat k value], [ALE_CATCH_message ex]⟩

/-! ## Lifecycle functions -/

/-- Source: `ale_create`.  `heap_ok` says whether `new(std::nothrow)` finds memory;
when it does not, the constructor is not run and the result is null. -/
def ale_create (E : ALEInterface σ ς χ) (heap_ok : Bool) : Out σ NoBuffer (Option σ) :=
  if heap_ok then
    match E.ctor with
    | .ok a => ⟨some a, some a, none, [.ctor], []⟩
    | .error ex => ⟨none, none, none, [.ctor], [ALE_CATCH_message ex]⟩
  else ⟨none, none, none, [], []⟩

/-- The string literal `"display_screen"`. -/
def key_display_screen : std_string :=
  [100, 105, 115, 112, 108, 97, 121, 95, 115, 99, 114, 101, 101, 110]

/-- Source: `ale_create_with_display`.  The returned handle points at the engine
in `Out.engine`; when `setBool` throws, the engine just built is not deleted. -/
def ale_create_with_display (E : ALEInterface σ ς χ) (heap_ok : Bool) (display_screen : Bool) :
    Out σ NoBuffer (Option σ) :=
  if heap_ok then
    match E.ctor with
    | .ok a =>
      match E.setBool a key_display_screen display_screen with
      | (.ok _, a1) =>
        ⟨some a1, some a1, none, [.ctor, .setBool key_display_screen display_screen], []⟩
      | (.error ex, a1) =>
        ⟨none, some a1, none, [.ctor, .setBool key_display_screen display_screen],
          [ALE_CATCH_message ex]⟩
    | .error ex => ⟨none, none, none, [.ctor], [ALE_CATCH_message ex]⟩
  else ⟨none, none, none, [], []⟩

/-- Source: `ale_destroy`.  `delete` runs the destructor and frees the engine. -/
def ale_destroy (_E : ALEInterface σ ς χ) (ale : Option σ) : Out σ NoBuffer Unit :=
  match ale with
  | some _ => ⟨(), none, none, [.dtor], []⟩
  | none => ⟨(), none, none, [], []⟩

/-! ## ROM loading and game control -/

/-- Source: `ale_loadROM`. -/
def ale_loadROM (E : ALEInterface σ ς χ) (ale : Option σ) (rom_file_path : Option std_string) :
    Out σ NoBuffer Int :=
  match ale with
  | none => ⟨-1, none, none, [], []⟩
  | some a =>
    match rom_file_path with
    | some p =>
      match E.loadROM a p with
      | (.ok _, a1) => ⟨0, some a1, none, [.loadROM p], []⟩
      | (.error ex, a1) => ⟨-1, some a1, none, [.loadROM p], [ALE_CATCH_message ex]⟩
    | none =>
      match E.loadROM_default a with
      | (.ok _, a1) => ⟨0, some a1, none, [.loadROM_default], []⟩
      | (.error ex, a1) => ⟨-1, some a1, none, [.loadROM_default], [ALE_CATCH_message ex]⟩

/-- Source: `ale_act`. -/
def ale_act (E : ALEInterface σ ς χ) (ale : Option σ) (action : Int) : Out σ NoBuffer c_float :=
  match ale with
  | none => ⟨quiet_NaN, none, none, [], []⟩
  | some a =>
    match E.act a action with
    | (.ok r, a1) => ⟨r, some a1, none, [.act action], []⟩
    | (.error ex, a1) => ⟨quiet_NaN, some a1, none, [.act action], [ALE_CATCH_message ex]⟩

/-- Source: `ale_act_with_strength`. -/
def ale_act_with_strength (E : ALEInterface σ ς χ) (ale : Option σ) (action : Int)
    (paddle_strength : c_float) : Out σ NoBuffer c_float :=
  match ale with
  | none => ⟨quiet_NaN, none, none, [], []⟩
  | some a =>
    match E.act_strength a action paddle_strength with
    | (.ok r, a1) => ⟨r, some a1, none, [.act_strength action paddle_strength], []⟩
    | (.error ex, a1) =>
      ⟨quiet_NaN, some a1, none, [.act_strength action paddle_strength], [ALE_CATCH_message ex]⟩

/-- Source: `ale_game_over`. -/
def ale_game_over (E : ALEInterface σ ς χ) (ale : Option σ) (with_truncation : Bool) :
    Out σ NoBuffer Bool :=
  match ale with
  | none => ⟨true, none, none, [], []⟩
  | some a =>
    match E.game_over a with_truncation with
    | .ok v => ⟨v, some a, none, [.game_over with_truncation], []⟩
    | .error ex => ⟨true, some a, none, [.game_over with_truncation], [ALE_CATCH_message ex]⟩

/-- Source: `ale_game_truncated`. -/
def ale_game_truncated (E : ALEInterface σ ς χ) (ale : Option σ) : Out σ NoBuffer Bool :=
  match ale with
  | none => ⟨false, none, none, [], []⟩
  | some a =>
    match E.game_truncated a with
    | .ok v => ⟨v, some a, none, [.game_truncated], []⟩
    | .error ex => ⟨false, some a, none, [.game_truncated], [ALE_CATCH_message ex]⟩

/-- Source: `ale_reset_game`. -/
def ale_reset_game (E : ALEInterface σ ς χ) (ale : Option σ) : Out σ NoBuffer Unit :=
  match ale with
  | none => ⟨(), none, none, [], []⟩
  | some a =>
    match E.reset_game a with
    | (.ok _, a1) => ⟨(), some a1, none, [.reset_game], []⟩
    | (.error ex, a1) => ⟨(), some a1, none, [.reset_game], [ALE_CATCH_message ex]⟩

/-! ## Game information -/

/-- Source: `ale_getAvailableModes`. -/
def ale_getAvailableModes (E : ALEInterface σ ς χ) (ale : Option σ) (mode_buffer : Option (Mem Int))
    (buffer_size : Nat) : Out σ Int Int :=
  match ale with
  | none => ⟨-1, none, mode_buffer, [], []⟩
  | some a =>
    match E.getAvailableModes a with
    | .ok v =>
      let num_modes := v.length
      let buffer :=
        match mode_buffer with
        | none => none
        | some buf => if buffer_size ≥ num_modes then some (copy_loop buf v num_modes) else some buf
      ⟨static_cast_int num_modes, some a, buffer, [.getAvailableModes], []⟩
    | .error ex => ⟨-1, some a, mode_buffer, [.getAvailableModes], [ALE_CATCH_message ex]⟩

/-- Source: `ale_setMode`. -/
def ale_setMode (E : ALEInterface σ ς χ) (ale : Option σ) (mode : Int) : Out σ NoBuffer Int :=
  match ale with
  | none => ⟨-1, none, none, [], []⟩
  | some a =>
    match E.setMode a mode with
    | (.ok _, a1) => ⟨0, some a1, none, [.setMode mode], []⟩
    | (.error ex, a1) => ⟨-1, some a1, none, [.setMode mode], [ALE_CATCH_message ex]⟩

/-- Source: `ale_getMode`. -/
def ale_getMode (E : ALEInterface σ ς χ) (ale : Option σ) : Out σ NoBuffer Int :=
  match ale with
  | none => ⟨-1, none, none, [], []⟩
  | some a =>
    match E.getMode a with
    | .ok v => ⟨v, some a, none, [.getMode], []⟩
    | .error ex => ⟨-1, some a, none, [.getMode], [ALE_CATCH_message ex]⟩

/-- Source: `ale_getAvailableDifficulties`. -/
def ale_getAvailableDifficulties (E : ALEInterface σ ς χ) (ale : Option σ) (difficulty_buffer : Option (Mem Int))
    (buffer_size : Nat) : Out σ Int Int :=
  match ale with
  | none => ⟨-1, none, difficulty_buffer, [], []⟩
  | some a =>
    match E.getAvailableDifficulties a with
    | .ok v =>
      let num_difficulties := v.length
      let buffer :=
        match difficulty_buffer with
        | none => none
        | some buf => if buffer_size ≥ num_difficulties then some (copy_loop buf v num_difficulties) else some buf
      ⟨static_cast_int num_difficulties, some a, buffer, [.getAvailableDifficulties], []⟩
    | .error ex => ⟨-1, some a, difficulty_buffer, [.getAvailableDifficulties], [ALE_CATCH_message ex]⟩

/-- Source: `ale_setDifficulty`. -/
def ale_setDifficulty (E : ALEInterface σ ς χ) (ale : Option σ) (difficulty : Int) : Out σ NoBuffer Int :=
  match ale with
  | none => ⟨-1, none, none, [], []⟩
  | some a =>
    match E.setDifficulty a difficulty with
    | (.ok _, a1) => ⟨0, some a1, none, [.setDifficulty difficulty], []⟩
    | (.error ex, a1) => ⟨-1, some a1, none, [.setDifficulty difficulty], [ALE_CATCH_message ex]⟩

/-- Source: `ale_getDifficulty`. -/
def ale_getDifficulty (E : ALEInterface σ ς χ) (ale : Option σ) : Out σ NoBuffer Int :=
  match ale with
  | none => ⟨-1, none, none, [], []⟩
  | some a =>
    match E.getDifficulty a with
    | .ok v => ⟨v, some a, none, [.getDifficulty], []⟩
    | .error ex => ⟨-1, some a, none, [.getDifficulty], [ALE_CATCH_message ex]⟩

/-- Source: `ale_getLegalActionSet`. -/
def ale_getLegalActionSet (E : ALEInterface σ ς χ) (ale : Option σ) (action_buffer : Option (Mem Int))
    (buffer_size : Nat) : Out σ Int Int :=
  match ale with
  | none => ⟨-1, none, action_buffer, [], []⟩
  | some a =>
    match E.getLegalActionSet a with
    | .ok v =>
      let num_actions := v.length
      let buffer :=
        match action_buffer with
        | none => none
        | some buf => if buffer_size ≥ num_actions then some (copy_loop buf v num_actions) else some buf
      ⟨static_cast_int num_actions, some a, buffer, [.getLegalActionSet], []⟩
    | .error ex => ⟨-1, some a, action_buffer, [.getLegalActionSet], [ALE_CATCH_message ex]⟩

/-- Source: `ale_getMinimalActionSet`. -/
def ale_getMinimalActionSet (E : ALEInterface σ ς χ) (ale : Option σ) (action_buffer : Option (Mem Int))
    (buffer_size : Nat) : Out σ Int Int :=
  match ale with
  | none => ⟨-1, none, action_buffer, [], []⟩
  | some a =>
    match E.getMinimalActionSet a with
    | .ok v =>
      let num_actions := v.length
      let buffer :=
        match action_buffer with
        | none => none
        | some buf => if buffer_size ≥ num_actions then some (copy_loop buf v num_actions) else some buf
      ⟨static_cast_int num_actions, some a, buffer, [.getMinimalActionSet], []⟩
    | .error ex => ⟨-1, some a, action_buffer, [.getMinimalActionSet], [ALE_CATCH_message ex]⟩

/-- Source: `ale_getFrameNumber`. -/
def ale_getFrameNumber (E : ALEInterface σ ς χ) (ale : Option σ) : Out σ NoBuffer Int :=
  match ale with
  | none => ⟨-1, none, none, [], []⟩
  | some a =>
    match E.getFrameNumber a with
    | .ok v => ⟨v, some a, none, [.getFrameNumber], []⟩
    | .error ex => ⟨-1, some a, none, [.getFrameNumber], [ALE_CATCH_message ex]⟩

/-- Source: `ale_lives`. -/
def ale_lives (E : ALEInterface σ ς χ) (ale : Option σ) : Out σ NoBuffer Int :=
  match ale with
  | none => ⟨-1, none, none, [], []⟩
  | some a =>
    match E.lives a with
    | .ok v => ⟨v, some a, none, [.lives], []⟩
    | .error ex => ⟨-1, some a, none, [.lives], [ALE_CATCH_message ex]⟩

/-- Source: `ale_getEpisodeFrameNumber`. -/
def ale_getEpisodeFrameNumber (E : ALEInterface σ ς χ) (ale : Option σ) : Out σ NoBuffer Int :=
  match ale with
  | none => ⟨-1, none, none, [], []⟩
  | some a =>
    match E.getEpisodeFrameNumber a with
    | .ok v => ⟨v, some a, none, [.getEpisodeFrameNumber], []⟩
    | .error ex => ⟨-1, some a, none, [.getEpisodeFrameNumber], [ALE_CATCH_message ex]⟩

/-! ## Screen access -/

/-- Source: `ale_getScreenWidth`. -/
def ale_getScreenWidth (E : ALEInterface σ ς χ) (ale : Option σ) : Out σ NoBuffer Int :=
  match ale with
  | none => ⟨-1, none, none, [], []⟩
  | some a =>
    match E.getScreen a with
    | .ok screen => ⟨screen.width, some a, none, [.getScreen], []⟩
    | .error ex => ⟨-1, some a, none, [.getScreen], [ALE_CATCH_message ex]⟩

/-- Source: `ale_getScreenHeight`. -/
def ale_getScreenHeight (E : ALEInterface σ ς χ) (ale : Option σ) : Out σ NoBuffer Int :=
  match ale with
  | none => ⟨-1, none, none, [], []⟩
  | some a =>
    match E.getScreen a with
    | .ok screen => ⟨screen.height, some a, none, [.getScreen], []⟩
    | .error ex => ⟨-1, some a, none, [.getScreen], [ALE_CATCH_message ex]⟩

/-- Source: `ale_getScreenGrayscale`.  The required size is computed in `size_t`, so modulo `2^64`. -/
def ale_getScreenGrayscale (E : ALEInterface σ ς χ) (ale : Option σ) (output_buffer : Option (Mem byte_t))
    (buffer_size : Nat) : Out σ byte_t Int :=
  match ale with
  | none => ⟨-1, none, output_buffer, [], []⟩
  | some a =>
    match output_buffer with
    | none => ⟨-1, some a, none, [], []⟩
    | some buf =>
      match E.getScreen a with
      | .error ex => ⟨-1, some a, some buf, [.getScreen], [ALE_CATCH_message ex]⟩
      | .ok screen1 =>
        let width := screen1.width
        match E.getScreen a with
        | .error ex => ⟨-1, some a, some buf, [.getScreen, .getScreen], [ALE_CATCH_message ex]⟩
        | .ok screen2 =>
          let height := screen2.height
          let required_size := (static_cast_size_t width * static_cast_size_t height) % 18446744073709551616
          if buffer_size < required_size then
            ⟨-1, some a, some buf, [.getScreen, .getScreen], []⟩
          else
            match E.getScreenGrayscale a with
            | .error ex =>
              ⟨-1, some a, some buf, [.getScreen, .getScreen, .getScreenGrayscale],
                [ALE_CATCH_message ex]⟩
            | .ok temp_buffer =>
              ⟨static_cast_int required_size, some a,
                some (memcpy buf temp_buffer required_size),
                [.getScreen, .getScreen, .getScreenGrayscale], []⟩

/-- Source: `ale_getScreenRGB`.  The required size is computed in `size_t`, so modulo `2^64`. -/
def ale_getScreenRGB (E : ALEInterface σ ς χ) (ale : Option σ) (output_buffer : Option (Mem byte_t))
    (buffer_size : Nat) : Out σ byte_t Int :=
  match ale with
  | none => ⟨-1, none, output_buffer, [], []⟩
  | some a =>
    match output_buffer with
    | none => ⟨-1, some a, none, [], []⟩
    | some buf =>
      match E.getScreen a with
      | .error ex => ⟨-1, some a, some buf, [.getScreen], [ALE_CATCH_message ex]⟩
      | .ok screen1 =>
        let width := screen1.width
        match E.getScreen a with
        | .error ex => ⟨-1, some a, some buf, [.getScreen, .getScreen], [ALE_CATCH_message ex]⟩
        | .ok screen2 =>
          let height := screen2.height
          let required_size := ((static_cast_size_t width * static_cast_size_t height) % 18446744073709551616 * 3)
            % 18446744073709551616
          if buffer_size < required_size then
            ⟨-1, some a, some buf, [.getScreen, .getScreen], []⟩
          else
            match E.getScreenRGB a with
            | .error ex =>
              ⟨-1, some a, some buf, [.getScreen, .getScreen, .getScreenRGB],
                [ALE_CATCH_message ex]⟩
            | .ok temp_buffer =>
              ⟨static_cast_int required_size, some a,
                some (memcpy buf temp_buffer required_size),
                [.getScreen, .getScreen, .getScreenRGB], []⟩

/-! ## Audio access -/

/-- Source: `ale_getAudio`. -/
def ale_getAudio (E : ALEInterface σ ς χ) (ale : Option σ) (output_buffer : Option (Mem byte_t))
    (buffer_size : Nat) : Out σ byte_t Int :=
  match ale with
  | none => ⟨-1, none, output_buffer, [], []⟩
  | some a =>
    match E.getAudio a with
    | .ok audio =>
      let audio_size := audio.length
      let buffer :=
        match output_buffer with
        | none => none
        | some buf =>
          if buffer_size ≥ audio_size then some (memcpy buf audio audio_size) else some buf
      ⟨static_cast_int audio_size, some a, buffer, [.getAudio], []⟩
    | .error ex => ⟨-1, some a, output_buffer, [.getAudio], [ALE_CATCH_message ex]⟩

/-! ## RAM access -/

/-- Source: `ale_getRAMSize`. -/
def ale_getRAMSize (E : ALEInterface σ ς χ) (ale : Option σ) : Out σ NoBuffer Int :=
  match ale with
  | none => ⟨-1, none, none, [], []⟩
  | some a =>
    match E.getRAM a with
    | .ok ram => ⟨static_cast_int ram.size, some a, none, [.getRAM], []⟩
    | .error ex => ⟨-1, some a, none, [.getRAM], [ALE_CATCH_message ex]⟩

/-- Source: `ale_getRAM`. -/
def ale_getRAM (E : ALEInterface σ ς χ) (ale : Option σ) (memory_index : Nat) :
    Out σ NoBuffer byte_t :=
  match ale with
  | none => ⟨0, none, none, [], []⟩
  | some a =>
    match E.getRAM a with
    | .ok ram =>
      if memory_index < ram.size then ⟨ram.get memory_index, some a, none, [.getRAM], []⟩
      else ⟨0, some a, none, [.getRAM], []⟩
    | .error ex => ⟨0, some a, none, [.getRAM], [ALE_CATCH_message ex]⟩

/-- Source: `ale_setRAM`. -/
def ale_setRAM (E : ALEInterface σ ς χ) (ale : Option σ) (memory_index : Nat) (value : byte_t) :
    Out σ NoBuffer Int :=
  match ale with
  | none => ⟨-1, none, none, [], []⟩
  | some a =>
    match E.setRAM a memory_index value with
    | (.ok _, a1) => ⟨0, some a1, none, [.setRAM memory_index value], []⟩
    | (.error ex, a1) =>
      ⟨-1, some a1, none, [.setRAM memory_index value], [ALE_CATCH_message ex]⟩

/-! ## State cloning and restoration -/

/-- Source: `ale_cloneState`.  The snapshot the engine returns by value is
copied to the heap; `heap_ok` says whether `new(std::nothrow)` finds memory. -/
def ale_cloneState (E : ALEInterface σ ς χ) (heap_ok : Bool) (ale : Option σ)
    (include_rng : Bool) : Out σ NoBuffer (Option ς) :=
  match ale with
  | none => ⟨none, none, none, [], []⟩
  | some a =>
    match E.cloneState a include_rng with
    | .ok state =>
      ⟨if heap_ok then some state else none, some a, none, [.cloneState include_rng], []⟩
    | .error ex => ⟨none, some a, none, [.cloneState include_rng], [ALE_CATCH_message ex]⟩

/-- Source: `ale_restoreState`. -/
def ale_restoreState (E : ALEInterface σ ς χ) (ale : Option σ) (state_handle : Option ς) :
    Out σ NoBuffer Int :=
  match ale with
  | none => ⟨-1, none, none, [], []⟩
  | some a =>
    match state_handle with
    | none => ⟨-1, some a, none, [], []⟩
    | some state =>
      match E.restoreState a state with
      | (.ok _, a1) => ⟨0, some a1, none, [.restoreState], []⟩
      | (.error ex, a1) => ⟨-1, some a1, none, [.restoreState], [ALE_CATCH_message ex]⟩

/-- Source: `ale_cloneSystemState`. -/
def ale_cloneSystemState (E : ALEInterface σ ς χ) (heap_ok : Bool) (ale : Option σ) :
    Out σ NoBuffer (Option ς) :=
  match ale with
  | none => ⟨none, none, none, [], []⟩
  | some a =>
    match E.cloneSystemState a with
    | .ok state => ⟨if heap_ok then some state else none, some a, none, [.cloneSystemState], []⟩
    | .error ex => ⟨none, some a, none, [.cloneSystemState], [ALE_CATCH_message ex]⟩

/-- Source: `ale_restoreSystemState`. -/
def ale_restoreSystemState (E : ALEInterface σ ς χ) (ale : Option σ) (state_handle : Option ς) :
    Out σ NoBuffer Int :=
  ale_restoreState E ale state_handle

/-- Source: `ale_destroyState`.  `delete` runs the destructor of the snapshot. -/
def ale_destroyState (state_handle : Option ς) : List Call :=
  match state_handle with
  | some _ => [.dtor_state]
  | none => []

/-! ## Screen saving -/

/-- Source: `ale_saveScreenPNG`. -/
def ale_saveScreenPNG (E : ALEInterface σ ς χ) (ale : Option σ) (filename : Option std_string) :
    Out σ NoBuffer Int :=
  match ale with
  | none => ⟨-1, none, none, [], []⟩
  | some a =>
    match filename with
    | none => ⟨-1, some a, none, [], []⟩
    | some f =>
      match E.saveScreenPNG a f with
      | .ok _ => ⟨0, some a, none, [.saveScreenPNG f], []⟩
      | .error ex => ⟨-1, some a, none, [.saveScreenPNG f], [ALE_CATCH_message ex]⟩

/-- Source: `ale_createScreenExporter`. -/
def ale_createScreenExporter (E : ALEInterface σ ς χ) (ale : Option σ)
    (path : Option std_string) : Out σ NoBuffer (Option χ) :=
  match ale with
  | none => ⟨none, none, none, [], []⟩
  | some a =>
    match path with
    | none => ⟨none, some a, none, [], []⟩
    | some p =>
      match E.createScreenExporter a p with
      | .ok exporter => ⟨exporter, some a, none, [.createScreenExporter p], []⟩
      | .error ex => ⟨none, some a, none, [.createScreenExporter p], [ALE_CATCH_message ex]⟩

/-- Source: `ale_destroyScreenExporter`.  `delete` runs the destructor of the
exporter. -/
def ale_destroyScreenExporter (exporter : Option χ) : List Call :=
  match exporter with
  | some _ => [.dtor_exporter]
  | none => []

/-! ## Static utility functions -/

/-- Source: `ale_isSupportedROM`. -/
def ale_isSupportedROM (E : ALEInterface σ ς χ) (rom_file_path : Option std_string)
    (output_md5_buffer : Option (Mem c_char)) (buffer_size : Nat) : Out σ c_char Int :=
  match rom_file_path with
  | none => ⟨-1, none, output_md5_buffer, [], []⟩
  | some p =>
    match output_md5_buffer with
    | none => ⟨-1, none, none, [], []⟩
    | some buf =>
      if buffer_size < 33 then ⟨-1, none, some buf, [], []⟩
      else
        match E.isSupportedROM p with
        | .ok (some md5) =>
          if buffer_size > md5.length then
            ⟨1, none,
              some ((strncpy buf md5 (buffer_size - 1)).store
                (min (buffer_size - 1) md5.length) 0),
              [.isSupportedROM p], []⟩
          else ⟨-1, none, some (buf.store 0 0), [.isSupportedROM p], []⟩
        | .ok none => ⟨0, none, some (buf.store 0 0), [.isSupportedROM p], []⟩
        | .error ex => ⟨-1, none, some buf, [.isSupportedROM p], [ALE_CATCH_message ex]⟩

/-- Source: `ale_welcomeMessage`. -/
def ale_welcomeMessage (E : ALEInterface σ ς χ) (output_buffer : Option (Mem c_char))
    (buffer_size : Nat) : Out σ c_char Int :=
  match E.welcomeMessage with
  | .ok msg =>
    let buffer :=
      match output_buffer with
      | none => none
      | some buf =>
        if buffer_size > 0 then
          let len_to_copy := if msg.length ≥ buffer_size then buffer_size - 1 else msg.length
          some ((memcpy buf (c_str msg) len_to_copy).store len_to_copy 0)
        else some buf
    ⟨static_cast_int msg.length, none, buffer, [.welcomeMessage], []⟩
  | .error ex => ⟨-1, none, output_buffer, [.welcomeMessage], [ALE_CATCH_message ex]⟩

/-! ## Example engines

Small engines on which the theorems below are instantiated. -/

/-- The state of the example engine `simEngine`: what its queries answer. -/
structure Sim where
  value : std_string
  legal : List Int
  minimal : List Int
  modes : List Int
  difficulties : List Int
  screen : ALEScreen
  gray : List byte_t
  rgb : List byte_t
  audio : List byte_t
  ram : List byte_t
  frame : Int
  rng : Nat

/-- An engine that never throws except on an out-of-range RAM write: queries
read the state (the RAM accessor yields `255` past the end), `setString` stores
the value, `act` advances the frame counter and the generator, a snapshot is
the state itself (with the generator reset when it is not included), and every
path but the empty one is a supported ROM with digest
`aaaaaaaaaaaaaaaaaaaaaaaaaaaaaaaa`. -/
def simEngine : ALEInterface Sim Sim Unit where
  ctor := .ok ⟨[], [], [], [], [], ⟨0, 0⟩, [], [], [], [], 0, 0⟩
  getStringInplace := fun s _ => .ok s.value
  getInt := fun s _ => .ok s.frame
  getBool := fun _ _ => .ok true
  getFloat := fun _ _ => .ok ⟨0⟩
  setString := fun s _ v =>
    (.ok (), ⟨v, s.legal, s.minimal, s.modes, s.difficulties, s.screen, s.gray, s.rgb, s.audio,
      s.ram, s.frame, s.rng⟩)
  setInt := fun s _ _ => (.ok (), s)
  setBool := fun s _ _ => (.ok (), s)
  setFloat := fun s _ _ => (.ok (), s)
  loadROM := fun s _ => (.ok (), s)
  loadROM_default := fun s => (.ok (), s)
  act := fun s _ =>
    (.ok ⟨0⟩, ⟨s.value, s.legal, s.minimal, s.modes, s.difficulties, s.screen, s.gray, s.rgb,
      s.audio, s.ram, s.frame + 1, s.rng + 1⟩)
  act_strength := fun s _ _ =>
    (.ok ⟨0⟩, ⟨s.value, s.legal, s.minimal, s.modes, s.difficulties, s.screen, s.gray, s.rgb,
      s.audio, s.ram, s.frame + 1, s.rng + 1⟩)
  game_over := fun _ _ => .ok false
  game_truncated := fun _ => .ok false
  reset_game := fun s => (.ok (), s)
  getAvailableModes := fun s => .ok s.modes
  setMode := fun s _ => (.ok (), s)
  getMode := fun _ => .ok 0
  getAvailableDifficulties := fun s => .ok s.difficulties
  setDifficulty := fun s _ => (.ok (), s)
  getDifficulty := fun _ => .ok 0
  getLegalActionSet := fun s => .ok s.legal
  getMinimalActionSet := fun s => .ok s.minimal
  getFrameNumber := fun s => .ok s.frame
  lives := fun _ => .ok 3
  getEpisodeFrameNumber := fun s => .ok s.frame
  getScreen := fun s => .ok s.screen
  getScreenGrayscale := fun s => .ok s.gray
  getScreenRGB := fun s => .ok s.rgb
  getAudio := fun s => .ok s.audio
  getRAM := fun s => .ok (ALERAM.ofList s.ram)
  setRAM := fun s i v =>
    if i < s.ram.length then
      (.ok (), ⟨s.value, s.legal, s.minimal, s.modes, s.difficulties, s.screen, s.gray, s.rgb,
        s.audio, s.ram.set i v, s.frame, s.rng⟩)
    else (.error (.std_exception "RAM index out of range"), s)
  cloneState := fun s include_rng =>
    .ok ⟨s.value, s.legal, s.minimal, s.modes, s.difficulties, s.screen, s.gray, s.rgb, s.audio,
      s.ram, s.frame, if include_rng then s.rng else 0⟩
  restoreState := fun _ snapshot => (.ok (), snapshot)
  saveScreenPNG := fun _ _ => .ok ()
  createScreenExporter := fun _ _ => .ok (some ())
  isSupportedROM := fun p => if p = [] then .ok none else .ok (some (List.replicate 32 97))
  welcomeMessage := .ok [65, 76, 69]

/-- A state of `simEngine`: the string `abc`, three legal and two minimal
actions, two modes, one difficulty, a 2 x 2 screen, three audio bytes and four
bytes of RAM. -/
def sim0 : Sim where
  value := [97, 98, 99]
  legal := [0, 1, 3]
  minimal := [0, 3]
  modes := [0, 4]
  difficulties := [1]
  screen := ⟨2, 2⟩
  gray := [10, 20, 30, 40]
  rgb := [1, 2, 3, 4, 5, 6, 7, 8, 9, 10, 11, 12]
  audio := [7, 8, 9]
  ram := [5, 6, 7, 8]
  frame := 0
  rng := 42

/-- A state of `simEngine` whose sequences do not fit a 32-bit `int` count:
`2^31` elements in every list and in the string, and a 65536 x 32768 screen. -/
def simHuge : Sim where
  value := List.replicate 2147483648 97
  legal := List.replicate 2147483648 0
  minimal := List.replicate 2147483648 0
  modes := List.replicate 2147483648 0
  difficulties := List.replicate 2147483648 0
  screen := ⟨65536, 32768⟩
  gray := List.replicate 2147483648 0
  rgb := List.replicate 6442450944 0
  audio := List.replicate 2147483648 0
  ram := [5, 6, 7, 8]
  frame := 0
  rng := 0

/-- An engine every method of which throws. -/
def brokenEngine : ALEInterface Unit Unit Unit where
  ctor := .error .other
  getStringInplace := fun _ _ => .error (.std_exception "no ROM loaded")
  getInt := fun _ _ => .error (.std_exception "no ROM loaded")
  getBool := fun _ _ => .error (.std_exception "no ROM loaded")
  getFloat := fun _ _ => .error (.std_exception "no ROM loaded")
  setString := fun s _ _ => (.error .other, s)
  setInt := fun s _ _ => (.error .other, s)
  setBool := fun s _ _ => (.error .other, s)
  setFloat := fun s _ _ => (.error .other, s)
  loadROM := fun s _ => (.error .other, s)
  loadROM_default := fun s => (.error .other, s)
  act := fun s _ => (.error .other, s)
  act_strength := fun s _ _ => (.error .other, s)
  game_over := fun _ _ => .error .other
  game_truncated := fun _ => .error .other
  reset_game := fun s => (.error .other, s)
  getAvailableModes := fun _ => .error .other
  setMode := fun s _ => (.error .other, s)
  getMode := fun _ => .error .other
  getAvailableDifficulties := fun _ => .error .other
  setDifficulty := fun s _ => (.error .other, s)
  getDifficulty := fun _ => .error .other
  getLegalActionSet := fun _ => .error .other
  getMinimalActionSet := fun _ => .error .other
  getFrameNumber := fun _ => .error .other
  lives := fun _ => .error .other
  getEpisodeFrameNumber := fun _ => .error .other
  getScreen := fun _ => .error .other
  getScreenGrayscale := fun _ => .error .other
  getScreenRGB := fun _ => .error .other
  getAudio := fun _ => .error .other
  getRAM := fun _ => .error .other
  setRAM := fun s _ _ => (.error .other, s)
  cloneState := fun _ _ => .error .other
  restoreState := fun s _ => (.error .other, s)
  saveScreenPNG := fun _ _ => .error .other
  createScreenExporter := fun _ _ => .error .other
  isSupportedROM := fun _ => .error .other
  welcomeMessage := .error .other

/-- An engine that constructs but whose `setBool` throws, as every other method
of it does. -/
def halfBrokenEngine : ALEInterface Unit Unit Unit :=
  { brokenEngine with ctor := .ok () }

/-- The example engine `simEngine` with a digest of 40 letters `a` for every
path. -/
def longDigestEngine : ALEInterface Sim Sim Unit :=
  { simEngine with isSupportedROM := fun _ => .ok (some (List.replicate 40 97)) }

/-- An output buffer whose every element is `v`. -/
def fill {β : Type} (v : β) : Mem β := fun _ => v


/-! ## Properties named in the theorems -/

/-- The size-then-fill round trip of a list query `q` (a boundary function
applied to its engine handle) on the engine `a`, whose list is `L`: the call
with a null destination and capacity 0 returns the number of elements; a call
with a destination of that capacity, or of any larger one, returns the same
number and leaves the elements of `L`, in order, at the head of the
destination; and no call changes the engine. -/
def SizeThenFill (q : Option (Mem Int) → Nat → Out σ Int Int) (a : σ) (L : List Int) : Prop :=
  (q none 0).ret = (L.length : Int) ∧ (q none 0).engine = some a ∧
  ∀ (buf : Mem Int) (c : Nat), L.length ≤ c →
    (q (some buf) c).ret = (L.length : Int) ∧ (q (some buf) c).engine = some a ∧
    ∃ m, (q (some buf) c).buffer = some m ∧ ∀ (i : Nat) (h : i < L.length), m i = L[i]

/-- A query `q` called with a non-null destination of capacity `N - 1` returns
the required count `N` converted to `int`, which is `N` itself, and so is not
`-1`, when an `int` can hold it, and leaves the destination as it was. -/
def ShortBufferKeepsCount {β : Type} (q : Option (Mem β) → Nat → Out σ β Int) (N : Nat) : Prop :=
  ∀ buf : Mem β,
    (q (some buf) (N - 1)).ret = static_cast_int N ∧
    (N ≤ 2147483647 →
      (q (some buf) (N - 1)).ret = (N : Int) ∧ (q (some buf) (N - 1)).ret ≠ -1) ∧
    (q (some buf) (N - 1)).buffer = some buf

/-- A query `q` called with a non-null destination of capacity `N - 1` returns
`-1` and leaves the destination as it was. -/
def ShortBufferRejected {β : Type} (q : Option (Mem β) → Nat → Out σ β Int) (N : Nat) : Prop :=
  ∀ buf : Mem β,
    (q (some buf) (N - 1)).ret = -1 ∧ (q (some buf) (N - 1)).buffer = some buf

/-- The fill of a screen query `q` whose required size is `N` bytes and whose
frame is `F`: with a non-null destination of capacity at least `N` the call
returns `N` (provided an `int` can hold it), the head of the destination
becomes `F` and every byte from index `N` on keeps its value; with a smaller
capacity the call returns `-1` and the destination is as it was. -/
def ScreenFill (q : Option (Mem byte_t) → Nat → Out σ byte_t Int) (N : Nat)
    (F : List byte_t) : Prop :=
  ∀ (buf : Mem byte_t) (c : Nat),
    (N ≤ c →
      (N ≤ 2147483647 → (q (some buf) c).ret = (N : Int)) ∧
      ∃ m, (q (some buf) c).buffer = some m ∧
        (∀ (i : Nat) (h : i < F.length), m i = F[i]) ∧ ∀ i : Nat, N ≤ i → m i = buf i) ∧
    (c < N → (q (some buf) c).ret = -1 ∧ (q (some buf) c).buffer = some buf)

/-- The marshalling of the string `s` by a string accessor `q` (a boundary
function applied to what precedes its destination): with a non-null destination
and a capacity `c ≥ 1` the call returns the length of `s`, the first
`m = min |s| (c - 1)` bytes of the destination become those of `s`, the byte at
index `m` becomes NUL, every byte at an index above `m` keeps its value, and
`m < c`; with a null destination, or with capacity 0, the call returns the
length of `s` and the destination is as it was. -/
def StringMarshalled (q : Option (Mem c_char) → Nat → Out σ c_char Int) (s : std_string) :
    Prop :=
  (∀ (buf : Mem c_char) (c : Nat), 1 ≤ c →
    (q (some buf) c).ret = (s.length : Int) ∧
    min s.length (c - 1) < c ∧
    ∃ m, (q (some buf) c).buffer = some m ∧
      (∀ (i : Nat) (h : i < s.length), i < min s.length (c - 1) → m i = s[i]) ∧
      m (min s.length (c - 1)) = 0 ∧
      ∀ i : Nat, min s.length (c - 1) < i → m i = buf i) ∧
  (∀ c : Nat, (q none c).ret = (s.length : Int) ∧ (q none c).buffer = none) ∧
  (∀ buf : Mem c_char, (q (some buf) 0).ret = (s.length : Int) ∧
    (q (some buf) 0).buffer = some buf)

/-- An engine call completes without raising. -/
def returns_normally {α : Type} (r : Except Thrown α) : Prop :=
  ∃ v, r = .ok v

/-- A status code: the return value is exactly `0` or `-1`, and it is `0`
exactly under the condition `success`. -/
def StatusCode (ret : Int) (success : Prop) : Prop :=
  (ret = 0 ∨ ret = -1) ∧ (ret = 0 ↔ success)

/-- Modelled from the spec: the engine method `setRAM(index, value)`, which is
declared in `ale_interface.hpp` and defined in the engine, neither of which is
among the sources; `ale_setRAM` leaves the bounds check to it.  The spec (4.7)
gives the raw memory an indexed byte write with bounds checking, for which an
"out-of-range write is a checked error": on an engine whose RAM is `ram`, a
write at an index past the end raises and leaves the RAM as it was, and a write
at an index within it completes and stores the byte there. -/
def setRAM_checked (E : ALEInterface σ ς χ) : Prop :=
  ∀ (a : σ) (ram : ALERAM) (i : Nat) (v : byte_t), E.getRAM a = .ok ram →
    (ram.size ≤ i →
      (∃ ex, (E.setRAM a i v).1 = .error ex) ∧ E.getRAM (E.setRAM a i v).2 = .ok ram) ∧
    (i < ram.size →
      (E.setRAM a i v).1 = .ok () ∧ E.getRAM (E.setRAM a i v).2 = .ok (ram.set i v))

/-- The all-or-nothing fill of a count-returning query `q` (a boundary function
applied to its engine handle) whose sequence is `L`: whatever the destination
and the capacity, the call returns the number of elements as an `int` (the
number itself when an `int` can hold it); with a non-null destination of
capacity at least that number, the head of the destination becomes `L`, in
order, and every element from index `|L|` on keeps its value; with a non-null
destination of smaller capacity the destination is as it was; and a null
destination stays null. -/
def AllOrNothing {β : Type} (q : Option (Mem β) → Nat → Out σ β Int) (L : List β) : Prop :=
  (∀ (dst : Option (Mem β)) (c : Nat),
    (q dst c).ret = static_cast_int L.length ∧
    (L.length ≤ 2147483647 → (q dst c).ret = (L.length : Int))) ∧
  (∀ (buf : Mem β) (c : Nat), L.length ≤ c →
    ∃ m, (q (some buf) c).buffer = some m ∧
      (∀ (i : Nat) (h : i < L.length), m i = L[i]) ∧ ∀ i : Nat, L.length ≤ i → m i = buf i) ∧
  (∀ (buf : Mem β) (c : Nat), c < L.length → (q (some buf) c).buffer = some buf) ∧
  (∀ c : Nat, (q none c).buffer = none)

/-! ## Auxiliary facts about the conversions and the copies -/

theorem static_cast_int_of_le (n : Nat) (h : n ≤ 2147483647) :
    static_cast_int n = (n : Int) := by
  unfold static_cast_int
  have h1 : n % 4294967296 = n := Nat.mod_eq_of_lt (by omega)
  rw [h1, if_pos (by omega)]

theorem static_cast_int_two_pow_31 : static_cast_int 2147483648 = -2147483648 := by
  decide

theorem copy_loop_apply (buffer : Mem Int) (v : List Int) (n j : Nat) :
    copy_loop buffer v n j = if j < n then v.getD j 0 else buffer j := by
  unfold copy_loop
  induction n with
  | zero => simp
  | succ k ih =>
    rw [List.range_succ, List.foldl_append]
    simp only [List.foldl_cons, List.foldl_nil, Mem.store]
    by_cases hj : j = k
    · subst hj
      simp
    · rw [if_neg hj, ih]
      by_cases hlt : j < k
      · rw [if_pos hlt, if_pos (by omega)]
      · rw [if_neg hlt, if_neg (by omega)]

theorem getD_eq_getElem {α : Type} (l : List α) (d : α) (i : Nat) (h : i < l.length) :
    l.getD i d = l[i] := by
  simp [List.getD, List.getElem?_eq_getElem h]

theorem c_str_getD (s : std_string) (i : Nat) (h : i < s.length) :
    (c_str s).getD i 0 = s[i] := by
  unfold c_str
  rw [getD_eq_getElem _ _ _ (by simp; omega)]
  exact List.getElem_append_left h

theorem strlen_of_no_nul (s : std_string) (h : ∀ c ∈ s, c ≠ 0) : strlen s = s.length := by
  unfold strlen
  congr 1
  rw [List.takeWhile_eq_self_iff]
  intro c hc
  simpa using h c hc

/-! ## C1: a null engine handle -/

/-- C1.  Called with a null engine handle, whatever the other arguments, every
boundary operation that takes one returns its sentinel, calls no engine method,
writes no diagnostic and leaves the output buffer as it was: `-1` for
`ale_getString`, the setters, `ale_loadROM`, the list queries, the mode and
difficulty accessors, the frame and lives queries, the screen queries,
`ale_getAudio`, `ale_getRAMSize`, `ale_setRAM`, the two restores and
`ale_saveScreenPNG`; `INT_MIN` for `ale_getInt`; `false` for `ale_getBool` and
`ale_game_truncated`; `true` for `ale_game_over`; the quiet NaN for
`ale_getFloat`, `ale_act` and `ale_act_with_strength`; `0` for `ale_getRAM`; a
null handle for the two clones and `ale_createScreenExporter`; and
`ale_reset_game` and `ale_destroy` do nothing. -/
theorem null_handle_returns_sentinel (E : ALEInterface σ ς χ) :
    (∀ (key : Option std_string) (buf : Option (Mem c_char)) (n : Nat), ale_getString E none key buf n = ⟨-1, none, buf, [], []⟩) ∧
    (∀ (key value : Option std_string), ale_setString E none key value = ⟨-1, none, none, [], []⟩) ∧
    (∀ (key : Option std_string) (value : Int), ale_setInt E none key value = ⟨-1, none, none, [], []⟩) ∧
    (∀ (key : Option std_string) (value : Bool), ale_setBool E none key value = ⟨-1, none, none, [], []⟩) ∧
    (∀ (key : Option std_string) (value : c_float), ale_setFloat E none key value = ⟨-1, none, none, [], []⟩) ∧
    (∀ (rom_file_path : Option std_string), ale_loadROM E none rom_file_path = ⟨-1, none, none, [], []⟩) ∧
    (∀ (buf : Option (Mem Int)) (n : Nat), ale_getAvailableModes E none buf n = ⟨-1, none, buf, [], []⟩) ∧
    (∀ (buf : Option (Mem Int)) (n : Nat), ale_getAvailableDifficulties E none buf n = ⟨-1, none, buf, [], []⟩) ∧
    (∀ (buf : Option (Mem Int)) (n : Nat), ale_getLegalActionSet E none buf n = ⟨-1, none, buf, [], []⟩) ∧
    (∀ (buf : Option (Mem Int)) (n : Nat), ale_getMinimalActionSet E none buf n = ⟨-1, none, buf, [], []⟩) ∧
    (∀ (mode : Int), ale_setMode E none mode = ⟨-1, none, none, [], []⟩) ∧
    (ale_getMode E none = ⟨-1, none, none, [], []⟩) ∧
    (∀ (difficulty : Int), ale_setDifficulty E none difficulty = ⟨-1, none, none, [], []⟩) ∧
    (ale_getDifficulty E none = ⟨-1, none, none, [], []⟩) ∧
    (ale_getFrameNumber E none = ⟨-1, none, none, [], []⟩) ∧
    (ale_getEpisodeFrameNumber E none = ⟨-1, none, none, [], []⟩) ∧
    (ale_lives E none = ⟨-1, none, none, [], []⟩) ∧
    (ale_getScreenWidth E none = ⟨-1, none, none, [], []⟩) ∧
    (ale_getScreenHeight E none = ⟨-1, none, none, [], []⟩) ∧
    (∀ (buf : Option (Mem byte_t)) (n : Nat), ale_getScreenGrayscale E none buf n = ⟨-1, none, buf, [], []⟩) ∧
    (∀ (buf : Option (Mem byte_t)) (n : Nat), ale_getScreenRGB E none buf n = ⟨-1, none, buf, [], []⟩) ∧
    (∀ (buf : Option (Mem byte_t)) (n : Nat), ale_getAudio E none buf n = ⟨-1, none, buf, [], []⟩) ∧
    (ale_getRAMSize E none = ⟨-1, none, none, [], []⟩) ∧
    (∀ (memory_index : Nat) (value : byte_t), ale_setRAM E none memory_index value = ⟨-1, none, none, [], []⟩) ∧
    (∀ (state : Option ς), ale_restoreState E none state = ⟨-1, none, none, [], []⟩) ∧
    (∀ (state : Option ς), ale_restoreSystemState E none state = ⟨-1, none, none, [], []⟩) ∧
    (∀ (filename : Option std_string), ale_saveScreenPNG E none filename = ⟨-1, none, none, [], []⟩) ∧
    (∀ (key : Option std_string), ale_getInt E none key = ⟨INT_MIN, none, none, [], []⟩) ∧
    (∀ (key : Option std_string), ale_getBool E none key = ⟨false, none, none, [], []⟩) ∧
    (ale_game_truncated E none = ⟨false, none, none, [], []⟩) ∧
    (∀ (with_truncation : Bool), ale_game_over E none with_truncation = ⟨true, none, none, [], []⟩) ∧
    (∀ (key : Option std_string), ale_getFloat E none key = ⟨quiet_NaN, none, none, [], []⟩) ∧
    (∀ (action : Int), ale_act E none action = ⟨quiet_NaN, none, none, [], []⟩) ∧
    (∀ (action : Int) (paddle_strength : c_float), ale_act_with_strength E none action paddle_strength = ⟨quiet_NaN, none, none, [], []⟩) ∧
    (∀ (memory_index : Nat), ale_getRAM E none memory_index = ⟨0, none, none, [], []⟩) ∧
    (∀ (path : Option std_string), ale_createScreenExporter E none path = ⟨none, none, none, [], []⟩) ∧
    (ale_reset_game E none = ⟨(), none, none, [], []⟩) ∧
    (ale_destroy E none = ⟨(), none, none, [], []⟩) ∧
    (∀ (heap_ok include_rng : Bool),
      ale_cloneState E heap_ok none include_rng = ⟨none, none, none, [], []⟩) ∧
    (∀ (heap_ok : Bool), ale_cloneSystemState E heap_ok none = ⟨none, none, none, [], []⟩) ∧
    quiet_NaN.isNaN = true := by
  refine ⟨?_, ?_, ?_, ?_, ?_, ?_, ?_, ?_, ?_, ?_, ?_, ?_, ?_, ?_, ?_, ?_, ?_, ?_, ?_, ?_, ?_, ?_, ?_, ?_, ?_, ?_, ?_, ?_, ?_, ?_, ?_, ?_, ?_, ?_, ?_, ?_, ?_, ?_, ?_, ?_, ?_⟩ <;> intros <;> rfl

/-! ## C2: size, then fill -/

/-- C2, the claim as stated fails: on an engine whose legal action set has
`2^31` elements, the size query (null destination, capacity 0) of
`ale_getLegalActionSet` returns `INT_MIN`, not the number of elements. -/
theorem size_query_wraps_beyond_int :
    simEngine.getLegalActionSet simHuge = .ok (List.replicate 2147483648 0) ∧
    (List.replicate 2147483648 (0 : Int)).length = 2147483648 ∧
    (ale_getLegalActionSet simEngine (some simHuge) none 0).ret = -2147483648 := by
  refine ⟨?_, List.length_replicate _ _, ?_⟩
  · simp only [simEngine, simHuge]
  · simp only [ale_getLegalActionSet, simEngine, simHuge, List.length_replicate]
    exact static_cast_int_two_pow_31

/-- C2, amended.  For each of the four list queries (`ale_getLegalActionSet`,
`ale_getMinimalActionSet`, `ale_getAvailableModes`,
`ale_getAvailableDifficulties`), every non-null engine whose list is `L`, with
a number of elements `K` that an `int` can hold (`K ≤ INT_MAX`): the call with
a null destination and capacity 0 returns `K`; the call with a destination of
capacity `K`, or of any larger capacity, returns `K` and leaves
`destination[i] = L[i]` for every `i < K`, in order; and the engine is the same
after each call. -/
theorem size_then_fill_round_trip (E : ALEInterface σ ς χ) (a : σ) (L : List Int)
    (hK : L.length ≤ 2147483647) :
    (E.getLegalActionSet a = .ok L → SizeThenFill (ale_getLegalActionSet E (some a)) a L) ∧
    (E.getMinimalActionSet a = .ok L → SizeThenFill (ale_getMinimalActionSet E (some a)) a L) ∧
    (E.getAvailableModes a = .ok L → SizeThenFill (ale_getAvailableModes E (some a)) a L) ∧
    (E.getAvailableDifficulties a = .ok L →
      SizeThenFill (ale_getAvailableDifficulties E (some a)) a L) := by
  refine ⟨?_, ?_, ?_, ?_⟩ <;> intro h <;>
    simp only [SizeThenFill, ale_getLegalActionSet, ale_getMinimalActionSet,
      ale_getAvailableModes, ale_getAvailableDifficulties, h] <;>
    refine ⟨static_cast_int_of_le _ hK, trivial, fun buf c hc =>
      ⟨static_cast_int_of_le _ hK, trivial, copy_loop buf L L.length, if_pos hc,
        fun i hi => ?_⟩⟩ <;>
    rw [copy_loop_apply, if_pos hi, getD_eq_getElem]

/-- C2, amended, on the example engine: its three legal actions, two minimal
actions, two modes and one difficulty. -/
theorem size_then_fill_round_trip_witness :
    SizeThenFill (ale_getLegalActionSet simEngine (some sim0)) sim0 [0, 1, 3] ∧
    SizeThenFill (ale_getMinimalActionSet simEngine (some sim0)) sim0 [0, 3] ∧
    SizeThenFill (ale_getAvailableModes simEngine (some sim0)) sim0 [0, 4] ∧
    SizeThenFill (ale_getAvailableDifficulties simEngine (some sim0)) sim0 [1] :=
  ⟨(size_then_fill_round_trip simEngine sim0 [0, 1, 3] (by decide)).1 rfl,
    (size_then_fill_round_trip simEngine sim0 [0, 3] (by decide)).2.1 rfl,
    (size_then_fill_round_trip simEngine sim0 [0, 4] (by decide)).2.2.1 rfl,
    (size_then_fill_round_trip simEngine sim0 [1] (by decide)).2.2.2 rfl⟩

theorem static_cast_size_t_natCast (n : Nat) (h : n ≤ 2147483647) :
    static_cast_size_t (n : Int) = n := by
  unfold static_cast_size_t
  omega

theorem gray_required_size (w h : Nat) (hw : w ≤ 2147483647) (hh : h ≤ 2147483647) :
    (static_cast_size_t (w : Int) * static_cast_size_t (h : Int)) % 18446744073709551616
      = w * h := by
  rw [static_cast_size_t_natCast w hw, static_cast_size_t_natCast h hh]
  have hb : w * h ≤ 2147483647 * 2147483647 := Nat.mul_le_mul hw hh
  exact Nat.mod_eq_of_lt (by omega)

theorem rgb_required_size (w h : Nat) (hw : w ≤ 2147483647) (hh : h ≤ 2147483647) :
    ((static_cast_size_t (w : Int) * static_cast_size_t (h : Int)) % 18446744073709551616 * 3)
      % 18446744073709551616 = w * h * 3 := by
  rw [gray_required_size w h hw hh]
  have hb : w * h ≤ 2147483647 * 2147483647 := Nat.mul_le_mul hw hh
  exact Nat.mod_eq_of_lt (by omega)

theorem count_is_not_error (n : Nat) (h : n ≤ 2147483647) :
    static_cast_int n = (n : Int) ∧ static_cast_int n ≠ -1 := by
  rw [static_cast_int_of_le n h]
  exact ⟨rfl, by omega⟩

/-! ## C3: a destination one element too small -/

/-- C3, the claim as stated fails: the example engine has three legal actions,
and `ale_getLegalActionSet` called with a non-null destination of capacity 2
returns 3, the required count, not the error sentinel `-1`. -/
theorem short_action_buffer_returns_count :
    simEngine.getLegalActionSet sim0 = .ok [0, 1, 3] ∧
    (ale_getLegalActionSet simEngine (some sim0) (some (fill 7)) 2).ret = 3 ∧
    (ale_getLegalActionSet simEngine (some sim0) (some (fill 7)) 2).ret ≠ -1 := by
  refine ⟨rfl, ?_, ?_⟩ <;> decide

/-- C3, amended.  With a required element count `N ≥ 1` and a non-null
destination of capacity `N - 1`: the four list queries and `ale_getAudio`
return the required count `N` converted to `int`, which is `N` itself, and so
is not `-1`, when `N ≤ INT_MAX`, and leave every element of the destination
unchanged; the two screen queries (width `w` and height `h` of the engine's
screen, `N = w * h` for grayscale and `N = w * h * 3` for RGB) return `-1` and
leave every element of the destination unchanged. -/
theorem insufficient_capacity (E : ALEInterface σ ς χ) (a : σ) :
    (∀ L : List Int, 1 ≤ L.length → E.getLegalActionSet a = .ok L →
      ShortBufferKeepsCount (ale_getLegalActionSet E (some a)) L.length) ∧
    (∀ L : List Int, 1 ≤ L.length → E.getMinimalActionSet a = .ok L →
      ShortBufferKeepsCount (ale_getMinimalActionSet E (some a)) L.length) ∧
    (∀ L : List Int, 1 ≤ L.length → E.getAvailableModes a = .ok L →
      ShortBufferKeepsCount (ale_getAvailableModes E (some a)) L.length) ∧
    (∀ L : List Int, 1 ≤ L.length → E.getAvailableDifficulties a = .ok L →
      ShortBufferKeepsCount (ale_getAvailableDifficulties E (some a)) L.length) ∧
    (∀ A : List byte_t, 1 ≤ A.length → E.getAudio a = .ok A →
      ShortBufferKeepsCount (ale_getAudio E (some a)) A.length) ∧
    (∀ w h : Nat, w ≤ 2147483647 → h ≤ 2147483647 → 1 ≤ w * h →
      E.getScreen a = .ok ⟨w, h⟩ →
      ShortBufferRejected (ale_getScreenGrayscale E (some a)) (w * h)) ∧
    (∀ w h : Nat, w ≤ 2147483647 → h ≤ 2147483647 → 1 ≤ w * h * 3 →
      E.getScreen a = .ok ⟨w, h⟩ →
      ShortBufferRejected (ale_getScreenRGB E (some a)) (w * h * 3)) := by
  refine ⟨?_, ?_, ?_, ?_, ?_, ?_, ?_⟩
  · intro L hN h buf
    have hlt : ¬ (L.length - 1 ≥ L.length) := by omega
    simp only [ale_getLegalActionSet, h, if_neg hlt]
    exact ⟨trivial, fun hK => count_is_not_error _ hK, trivial⟩
  · intro L hN h buf
    have hlt : ¬ (L.length - 1 ≥ L.length) := by omega
    simp only [ale_getMinimalActionSet, h, if_neg hlt]
    exact ⟨trivial, fun hK => count_is_not_error _ hK, trivial⟩
  · intro L hN h buf
    have hlt : ¬ (L.length - 1 ≥ L.length) := by omega
    simp only [ale_getAvailableModes, h, if_neg hlt]
    exact ⟨trivial, fun hK => count_is_not_error _ hK, trivial⟩
  · intro L hN h buf
    have hlt : ¬ (L.length - 1 ≥ L.length) := by omega
    simp only [ale_getAvailableDifficulties, h, if_neg hlt]
    exact ⟨trivial, fun hK => count_is_not_error _ hK, trivial⟩
  · intro A hN h buf
    have hlt : ¬ (A.length - 1 ≥ A.length) := by omega
    simp only [ale_getAudio, h, if_neg hlt]
    exact ⟨trivial, fun hK => count_is_not_error _ hK, trivial⟩
  · intro w h hw hh hN hs buf
    have hlt : w * h - 1 < w * h := by omega
    simp only [ale_getScreenGrayscale, hs, gray_required_size w h hw hh, if_pos hlt]
    exact ⟨trivial, trivial⟩
  · intro w h hw hh hN hs buf
    have hlt : w * h * 3 - 1 < w * h * 3 := by omega
    simp only [ale_getScreenRGB, hs, rgb_required_size w h hw hh, if_pos hlt]
    exact ⟨trivial, trivial⟩

/-- C3, amended, on the example engine: three legal actions, two minimal
actions, two modes, one difficulty, three audio bytes and a 2 x 2 screen. -/
theorem insufficient_capacity_witness :
    ShortBufferKeepsCount (ale_getLegalActionSet simEngine (some sim0)) 3 ∧
    ShortBufferKeepsCount (ale_getMinimalActionSet simEngine (some sim0)) 2 ∧
    ShortBufferKeepsCount (ale_getAvailableModes simEngine (some sim0)) 2 ∧
    ShortBufferKeepsCount (ale_getAvailableDifficulties simEngine (some sim0)) 1 ∧
    ShortBufferKeepsCount (ale_getAudio simEngine (some sim0)) 3 ∧
    ShortBufferRejected (ale_getScreenGrayscale simEngine (some sim0)) 4 ∧
    ShortBufferRejected (ale_getScreenRGB simEngine (some sim0)) 12 :=
  ⟨(insufficient_capacity simEngine sim0).1 [0, 1, 3] (by decide) rfl,
    (insufficient_capacity simEngine sim0).2.1 [0, 3] (by decide) rfl,
    (insufficient_capacity simEngine sim0).2.2.1 [0, 4] (by decide) rfl,
    (insufficient_capacity simEngine sim0).2.2.2.1 [1] (by decide) rfl,
    (insufficient_capacity simEngine sim0).2.2.2.2.1 [7, 8, 9] (by decide) rfl,
    (insufficient_capacity simEngine sim0).2.2.2.2.2.1 2 2 (by decide) (by decide) (by decide) rfl,
    (insufficient_capacity simEngine sim0).2.2.2.2.2.2 2 2 (by decide) (by decide) (by decide)
      rfl⟩

/-! ## C4: the screen queries and a null destination -/

/-- C4, the claim as stated fails: the example engine has a 2 x 2 screen, and
with a null destination and capacity 0 `ale_getScreenGrayscale` and
`ale_getScreenRGB` return `-1`, not the required byte counts 4 and 12. -/
theorem screen_size_query_returns_error :
    simEngine.getScreen sim0 = .ok ⟨2, 2⟩ ∧
    (ale_getScreenGrayscale simEngine (some sim0) none 0).ret = -1 ∧
    (ale_getScreenGrayscale simEngine (some sim0) none 0).ret ≠ 2 * 2 ∧
    (ale_getScreenRGB simEngine (some sim0) none 0).ret = -1 ∧
    (ale_getScreenRGB simEngine (some sim0) none 0).ret ≠ 2 * 2 * 3 := by
  refine ⟨rfl, ?_, ?_, ?_, ?_⟩ <;> decide

/-- C4, amended.  For every non-null engine, `ale_getScreenGrayscale` and
`ale_getScreenRGB` called with a null destination return `-1` whatever the
capacity, without calling the engine: the screen queries have no size-query
mode.  The width `w` and height `h`, from which the required byte counts
`w * h` and `w * h * 3` follow, are what `ale_getScreenWidth` and
`ale_getScreenHeight` return. -/
theorem screen_null_destination (E : ALEInterface σ ς χ) (a : σ) :
    (∀ n : Nat, ale_getScreenGrayscale E (some a) none n = ⟨-1, some a, none, [], []⟩) ∧
    (∀ n : Nat, ale_getScreenRGB E (some a) none n = ⟨-1, some a, none, [], []⟩) ∧
    (∀ screen : ALEScreen, E.getScreen a = .ok screen →
      (ale_getScreenWidth E (some a)).ret = screen.width ∧
      (ale_getScreenHeight E (some a)).ret = screen.height) := by
  refine ⟨fun _ => rfl, fun _ => rfl, fun screen hs => ?_⟩
  simp only [ale_getScreenWidth, ale_getScreenHeight, hs, and_self]

/-- C4, amended, on the example engine and its 2 x 2 screen. -/
theorem screen_null_destination_witness :
    (ale_getScreenWidth simEngine (some sim0)).ret = 2 ∧
    (ale_getScreenHeight simEngine (some sim0)).ret = 2 :=
  (screen_null_destination simEngine sim0).2.2 ⟨2, 2⟩ rfl

/-! ## C5: filling a screen buffer -/

/-- C5, the claim as stated fails: on an engine with a 65536 x 32768 screen and
a grayscale frame of `65536 * 32768 = 2^31` bytes, `ale_getScreenGrayscale`
with a non-null destination of capacity `2^31` returns `INT_MIN`, not the
number of bytes. -/
theorem screen_fill_wraps_beyond_int :
    simEngine.getScreen simHuge = .ok ⟨65536, 32768⟩ ∧
    simEngine.getScreenGrayscale simHuge = .ok (List.replicate 2147483648 0) ∧
    (List.replicate 2147483648 (0 : byte_t)).length = 65536 * 32768 ∧
    (ale_getScreenGrayscale simEngine (some simHuge) (some (fill 0)) 2147483648).ret
      = -2147483648 := by
  refine ⟨?_, ?_, ?_, ?_⟩
  · simp only [simEngine, simHuge]
  · simp only [simEngine, simHuge]
  · rw [List.length_replicate]
  · have hs : simEngine.getScreen simHuge = .ok ⟨((65536 : Nat) : Int), ((32768 : Nat) : Int)⟩ := by
      simp only [simEngine, simHuge]
      rfl
    have hr := gray_required_size 65536 32768 (by decide) (by decide)
    have hlt : ¬ (2147483648 < 65536 * 32768) := by decide
    have hg : simEngine.getScreenGrayscale simHuge = .ok (List.replicate 2147483648 0) := by
      simp only [simEngine, simHuge]
    simp only [ale_getScreenGrayscale, hs, hr, if_neg hlt, hg]
    exact static_cast_int_two_pow_31

/-- C5, amended.  For every non-null engine with screen width `w` and height
`h` whose grayscale (resp. RGB) frame `F` has `w * h` (resp. `w * h * 3`)
bytes, and every non-null destination: when the capacity is at least the
required size, `ale_getScreenGrayscale` (resp. `ale_getScreenRGB`) sets the
first `w * h` (resp. `w * h * 3`) destination bytes to `F`, leaves the later
bytes unchanged and, provided the required size is at most `INT_MAX`, returns
it; when the capacity is smaller it returns `-1` and leaves the destination
unchanged. -/
theorem screen_fill (E : ALEInterface σ ς χ) (a : σ) (w h : Nat)
    (hw : w ≤ 2147483647) (hh : h ≤ 2147483647) (hs : E.getScreen a = .ok ⟨w, h⟩) :
    (∀ F : List byte_t, E.getScreenGrayscale a = .ok F → F.length = w * h →
      ScreenFill (ale_getScreenGrayscale E (some a)) (w * h) F) ∧
    (∀ F : List byte_t, E.getScreenRGB a = .ok F → F.length = w * h * 3 →
      ScreenFill (ale_getScreenRGB E (some a)) (w * h * 3) F) := by
  constructor
  · intro F hF hlen buf c
    constructor
    · intro hc
      have hlt : ¬ (c < w * h) := by omega
      simp only [ale_getScreenGrayscale, hs, gray_required_size w h hw hh, if_neg hlt, hF]
      refine ⟨fun hN => static_cast_int_of_le _ hN, memcpy buf F (w * h), rfl, ?_, ?_⟩
      · intro i hi
        simp only [memcpy]
        rw [if_pos (by omega), getD_eq_getElem _ _ _ hi]
      · intro i hi
        simp only [memcpy]
        rw [if_neg (by omega)]
    · intro hc
      simp only [ale_getScreenGrayscale, hs, gray_required_size w h hw hh, if_pos hc]
      exact ⟨trivial, trivial⟩
  · intro F hF hlen buf c
    constructor
    · intro hc
      have hlt : ¬ (c < w * h * 3) := by omega
      simp only [ale_getScreenRGB, hs, rgb_required_size w h hw hh, if_neg hlt, hF]
      refine ⟨fun hN => static_cast_int_of_le _ hN, memcpy buf F (w * h * 3), rfl, ?_, ?_⟩
      · intro i hi
        simp only [memcpy]
        rw [if_pos (by omega), getD_eq_getElem _ _ _ hi]
      · intro i hi
        simp only [memcpy]
        rw [if_neg (by omega)]
    · intro hc
      simp only [ale_getScreenRGB, hs, rgb_required_size w h hw hh, if_pos hc]
      exact ⟨trivial, trivial⟩

/-- C5, amended, on the example engine: a 2 x 2 screen, four grayscale bytes
and twelve RGB bytes. -/
theorem screen_fill_witness :
    ScreenFill (ale_getScreenGrayscale simEngine (some sim0)) 4 [10, 20, 30, 40] ∧
    ScreenFill (ale_getScreenRGB simEngine (some sim0)) 12
      [1, 2, 3, 4, 5, 6, 7, 8, 9, 10, 11, 12] :=
  ⟨(screen_fill simEngine sim0 2 2 (by decide) (by decide) rfl).1 [10, 20, 30, 40] rfl rfl,
    (screen_fill simEngine sim0 2 2 (by decide) (by decide) rfl).2
      [1, 2, 3, 4, 5, 6, 7, 8, 9, 10, 11, 12] rfl rfl⟩

/-! ## C6: strings -/

theorem string_copy_spec (s : std_string) (buf : Mem c_char) (c : Nat) (hc : 1 ≤ c) :
    min s.length (c - 1) < c ∧
    (∀ (i : Nat) (h : i < s.length), i < min s.length (c - 1) →
      ((memcpy buf (c_str s) (if s.length ≥ c then c - 1 else s.length)).store
        (if s.length ≥ c then c - 1 else s.length) 0) i = s[i]) ∧
    ((memcpy buf (c_str s) (if s.length ≥ c then c - 1 else s.length)).store
      (if s.length ≥ c then c - 1 else s.length) 0) (min s.length (c - 1)) = 0 ∧
    ∀ i : Nat, min s.length (c - 1) < i →
      ((memcpy buf (c_str s) (if s.length ≥ c then c - 1 else s.length)).store
        (if s.length ≥ c then c - 1 else s.length) 0) i = buf i := by
  have hm : (if s.length ≥ c then c - 1 else s.length) = min s.length (c - 1) := by
    split <;> omega
  rw [hm]
  refine ⟨by omega, ?_, ?_, ?_⟩
  · intro i hi hlt
    simp only [Mem.store, memcpy]
    rw [if_neg (by omega), if_pos hlt, c_str_getD s i hi]
  · simp only [Mem.store, if_true]
  · intro i hi
    simp only [Mem.store, memcpy]
    rw [if_neg (by omega), if_neg (by omega)]

/-- C6, the claim as stated fails: on an engine whose string value has `2^31`
bytes, `ale_getString` with a null destination returns `INT_MIN`, not the
length of the string. -/
theorem string_length_wraps_beyond_int :
    simEngine.getStringInplace simHuge [107] = .ok (List.replicate 2147483648 97) ∧
    (List.replicate 2147483648 (97 : c_char)).length = 2147483648 ∧
    (ale_getString simEngine (some simHuge) (some [107]) none 0).ret = -2147483648 := by
  refine ⟨?_, List.length_replicate _ _, ?_⟩
  · simp only [simEngine, simHuge]
  · simp only [ale_getString, simEngine, simHuge, List.length_replicate]
    exact static_cast_int_two_pow_31

/-- C6, amended.  For every source string `s` of length at most `INT_MAX` (the
engine's value for the key in `ale_getString`, the welcome message in
`ale_welcomeMessage`), every non-null destination and every capacity `c ≥ 1`,
the call returns the true length `|s|`, writes the first `m = min |s| (c - 1)`
bytes of `s` to `destination[0..m)`, writes a NUL at `destination[m]` and
leaves every index above `m` unchanged, and `m < c`; with a null destination or
`c = 0` it leaves the destination unchanged and still returns `|s|`. -/
theorem string_marshalling (E : ALEInterface σ ς χ) :
    (∀ (a : σ) (key s : std_string), E.getStringInplace a key = .ok s →
      s.length ≤ 2147483647 → StringMarshalled (ale_getString E (some a) (some key)) s) ∧
    (∀ s : std_string, E.welcomeMessage = .ok s → s.length ≤ 2147483647 →
      StringMarshalled (ale_welcomeMessage E) s) := by
  constructor
  · intro a key s hs hlen
    refine ⟨fun buf c hc => ?_, fun c => ?_, fun buf => ?_⟩
    · have hpos : c > 0 := by omega
      obtain ⟨h1, h2, h3, h4⟩ := string_copy_spec s buf c hc
      simp only [ale_getString, hs, if_pos hpos]
      exact ⟨static_cast_int_of_le _ hlen, h1, _, rfl, h2, h3, h4⟩
    · simp only [ale_getString, hs]
      exact ⟨static_cast_int_of_le _ hlen, trivial⟩
    · have hz : ¬ (0 > 0) := by omega
      simp only [ale_getString, hs, if_neg hz]
      exact ⟨static_cast_int_of_le _ hlen, trivial⟩
  · intro s hs hlen
    refine ⟨fun buf c hc => ?_, fun c => ?_, fun buf => ?_⟩
    · have hpos : c > 0 := by omega
      obtain ⟨h1, h2, h3, h4⟩ := string_copy_spec s buf c hc
      simp only [ale_welcomeMessage, hs, if_pos hpos]
      exact ⟨static_cast_int_of_le _ hlen, h1, _, rfl, h2, h3, h4⟩
    · simp only [ale_welcomeMessage, hs]
      exact ⟨static_cast_int_of_le _ hlen, trivial⟩
    · have hz : ¬ (0 > 0) := by omega
      simp only [ale_welcomeMessage, hs, if_neg hz]
      exact ⟨static_cast_int_of_le _ hlen, trivial⟩

/-- C6, amended, on the example engine: the value `abc` and the welcome
message `ALE`. -/
theorem string_marshalling_witness :
    StringMarshalled (ale_getString simEngine (some sim0) (some [107])) [97, 98, 99] ∧
    StringMarshalled (ale_welcomeMessage simEngine) [65, 76, 69] :=
  ⟨(string_marshalling simEngine).1 sim0 [107] [97, 98, 99] rfl (by decide),
    (string_marshalling simEngine).2 [65, 76, 69] rfl (by decide)⟩

/-! ## C7: status codes -/

/-- C7.  Each status-returning operation (`ale_setString`, `ale_setInt`,
`ale_setBool`, `ale_setFloat`, `ale_loadROM`, `ale_setMode`,
`ale_setDifficulty`, `ale_setRAM`, `ale_restoreState`,
`ale_restoreSystemState`, `ale_saveScreenPNG`) returns exactly `0` or `-1`, and
returns `0` if and only if its engine handle and every required pointer
argument (key, value, snapshot handle, filename) are non-null and the engine
call it delegates to completes without raising; `ale_loadROM` accepts a null
path, for which it calls the engine's default reload, and only that, and
returns `0` when the reload completes. -/
theorem status_codes (E : ALEInterface σ ς χ) :
    (∀ (ale : Option σ) (key value : Option std_string),
      StatusCode (ale_setString E ale key value).ret
        (∃ a k v, ale = some a ∧ key = some k ∧ value = some v ∧
          returns_normally (E.setString a k v).1)) ∧
    (∀ (ale : Option σ) (key : Option std_string) (value : Int),
      StatusCode (ale_setInt E ale key value).ret
        (∃ a k, ale = some a ∧ key = some k ∧ returns_normally (E.setInt a k value).1)) ∧
    (∀ (ale : Option σ) (key : Option std_string) (value : Bool),
      StatusCode (ale_setBool E ale key value).ret
        (∃ a k, ale = some a ∧ key = some k ∧ returns_normally (E.setBool a k value).1)) ∧
    (∀ (ale : Option σ) (key : Option std_string) (value : c_float),
      StatusCode (ale_setFloat E ale key value).ret
        (∃ a k, ale = some a ∧ key = some k ∧ returns_normally (E.setFloat a k value).1)) ∧
    (∀ (ale : Option σ) (rom_file_path : std_string),
      StatusCode (ale_loadROM E ale (some rom_file_path)).ret
        (∃ a, ale = some a ∧ returns_normally (E.loadROM a rom_file_path).1)) ∧
    (∀ ale : Option σ,
      StatusCode (ale_loadROM E ale none).ret
        (∃ a, ale = some a ∧ returns_normally (E.loadROM_default a).1)) ∧
    (∀ a : σ, (ale_loadROM E (some a) none).calls = [.loadROM_default]) ∧
    (∀ (ale : Option σ) (mode : Int),
      StatusCode (ale_setMode E ale mode).ret
        (∃ a, ale = some a ∧ returns_normally (E.setMode a mode).1)) ∧
    (∀ (ale : Option σ) (difficulty : Int),
      StatusCode (ale_setDifficulty E ale difficulty).ret
        (∃ a, ale = some a ∧ returns_normally (E.setDifficulty a difficulty).1)) ∧
    (∀ (ale : Option σ) (memory_index : Nat) (value : byte_t),
      StatusCode (ale_setRAM E ale memory_index value).ret
        (∃ a, ale = some a ∧ returns_normally (E.setRAM a memory_index value).1)) ∧
    (∀ (ale : Option σ) (state_handle : Option ς),
      StatusCode (ale_restoreState E ale state_handle).ret
        (∃ a st, ale = some a ∧ state_handle = some st ∧
          returns_normally (E.restoreState a st).1)) ∧
    (∀ (ale : Option σ) (state_handle : Option ς),
      StatusCode (ale_restoreSystemState E ale state_handle).ret
        (∃ a st, ale = some a ∧ state_handle = some st ∧
          returns_normally (E.restoreState a st).1)) ∧
    (∀ (ale : Option σ) (filename : Option std_string),
      StatusCode (ale_saveScreenPNG E ale filename).ret
        (∃ a f, ale = some a ∧ filename = some f ∧
          returns_normally (E.saveScreenPNG a f))) := by
  refine ⟨?_, ?_, ?_, ?_, ?_, ?_, ?_, ?_, ?_, ?_, ?_, ?_, ?_⟩
  · intro ale key value
    rcases ale with _ | a <;> rcases key with _ | k <;> rcases value with _ | v <;>
      try simp [StatusCode, ale_setString]
    rcases h : E.setString a k v with ⟨_ | _, a1⟩ <;> simp [returns_normally, h]
  · intro ale key value
    rcases ale with _ | a <;> rcases key with _ | k <;> try simp [StatusCode, ale_setInt]
    rcases h : E.setInt a k value with ⟨_ | _, a1⟩ <;> simp [returns_normally, h]
  · intro ale key value
    rcases ale with _ | a <;> rcases key with _ | k <;> try simp [StatusCode, ale_setBool]
    rcases h : E.setBool a k value with ⟨_ | _, a1⟩ <;> simp [returns_normally, h]
  · intro ale key value
    rcases ale with _ | a <;> rcases key with _ | k <;> try simp [StatusCode, ale_setFloat]
    rcases h : E.setFloat a k value with ⟨_ | _, a1⟩ <;> simp [returns_normally, h]
  · intro ale p
    rcases ale with _ | a <;> try simp [StatusCode, ale_loadROM]
    rcases h : E.loadROM a p with ⟨_ | _, a1⟩ <;> simp [returns_normally, h]
  · intro ale
    rcases ale with _ | a <;> try simp [StatusCode, ale_loadROM]
    rcases h : E.loadROM_default a with ⟨_ | _, a1⟩ <;> simp [returns_normally, h]
  · intro a
    simp only [ale_loadROM]
    rcases h : E.loadROM_default a with ⟨_ | _, a1⟩ <;> rfl
  · intro ale mode
    rcases ale with _ | a <;> try simp [StatusCode, ale_setMode]
    rcases h : E.setMode a mode with ⟨_ | _, a1⟩ <;> simp [returns_normally, h]
  · intro ale difficulty
    rcases ale with _ | a <;> try simp [StatusCode, ale_setDifficulty]
    rcases h : E.setDifficulty a difficulty with ⟨_ | _, a1⟩ <;> simp [returns_normally, h]
  · intro ale memory_index value
    rcases ale with _ | a <;> try simp [StatusCode, ale_setRAM]
    rcases h : E.setRAM a memory_index value with ⟨_ | _, a1⟩ <;> simp [returns_normally, h]
  · intro ale state_handle
    rcases ale with _ | a <;> rcases state_handle with _ | st <;>
      try simp [StatusCode, ale_restoreState]
    rcases h : E.restoreState a st with ⟨_ | _, a1⟩ <;> simp [returns_normally, h]
  · intro ale state_handle
    rcases ale with _ | a <;> rcases state_handle with _ | st <;>
      try simp [StatusCode, ale_restoreSystemState, ale_restoreState]
    rcases h : E.restoreState a st with ⟨_ | _, a1⟩ <;> simp [returns_normally, h]
  · intro ale filename
    rcases ale with _ | a <;> rcases filename with _ | f <;>
      try simp [StatusCode, ale_saveScreenPNG]
    rcases h : E.saveScreenPNG a f with _ | _ <;> simp [returns_normally, h]

/-! ## C8: failures raised by the engine -/

/-- C8.  For every non-null engine and every input, if the engine call an
operation delegates to raises, the operation returns its own sentinel: `-1`
for `ale_getString` and for every count-returning query (action sets, modes,
difficulties, audio, RAM size, frame numbers, lives, screen width and height),
`INT_MIN` for `ale_getInt`, the quiet NaN for `ale_getFloat`, `ale_act` and
`ale_act_with_strength`, `false` for `ale_getBool` and `ale_game_truncated`,
`true` for `ale_game_over`, `0` for `ale_getRAM`, and a null handle for
`ale_create`, `ale_create_with_display` (whether the constructor or the
`setBool` call raises), `ale_cloneState`, `ale_cloneSystemState` and
`ale_createScreenExporter`. -/
theorem error_translation (E : ALEInterface σ ς χ) :
    (∀ (a : σ) (key : std_string) (buf : Option (Mem c_char)) (n : Nat) (ex : Thrown), E.getStringInplace a key = .error ex →
      (ale_getString E (some a) (some key) buf n).ret = -1) ∧
    (∀ (a : σ) (key : std_string) (ex : Thrown), E.getInt a key = .error ex →
      (ale_getInt E (some a) (some key)).ret = INT_MIN) ∧
    (∀ (a : σ) (key : std_string) (ex : Thrown), E.getFloat a key = .error ex →
      (ale_getFloat E (some a) (some key)).ret = quiet_NaN) ∧
    (∀ (a : σ) (key : std_string) (ex : Thrown), E.getBool a key = .error ex →
      (ale_getBool E (some a) (some key)).ret = false) ∧
    (∀ (a : σ) (action : Int) (ex : Thrown), (E.act a action).1 = .error ex →
      (ale_act E (some a) action).ret = quiet_NaN) ∧
    (∀ (a : σ) (action : Int) (paddle_strength : c_float) (ex : Thrown), (E.act_strength a action paddle_strength).1 = .error ex →
      (ale_act_with_strength E (some a) action paddle_strength).ret = quiet_NaN) ∧
    (∀ (a : σ) (with_truncation : Bool) (ex : Thrown), E.game_over a with_truncation = .error ex →
      (ale_game_over E (some a) with_truncation).ret = true) ∧
    (∀ (a : σ) (ex : Thrown), E.game_truncated a = .error ex →
      (ale_game_truncated E (some a)).ret = false) ∧
    (∀ (a : σ) (buf : Option (Mem Int)) (n : Nat) (ex : Thrown), E.getLegalActionSet a = .error ex →
      (ale_getLegalActionSet E (some a) buf n).ret = -1) ∧
    (∀ (a : σ) (buf : Option (Mem Int)) (n : Nat) (ex : Thrown), E.getMinimalActionSet a = .error ex →
      (ale_getMinimalActionSet E (some a) buf n).ret = -1) ∧
    (∀ (a : σ) (buf : Option (Mem Int)) (n : Nat) (ex : Thrown), E.getAvailableModes a = .error ex →
      (ale_getAvailableModes E (some a) buf n).ret = -1) ∧
    (∀ (a : σ) (buf : Option (Mem Int)) (n : Nat) (ex : Thrown), E.getAvailableDifficulties a = .error ex →
      (ale_getAvailableDifficulties E (some a) buf n).ret = -1) ∧
    (∀ (a : σ) (buf : Option (Mem byte_t)) (n : Nat) (ex : Thrown), E.getAudio a = .error ex →
      (ale_getAudio E (some a) buf n).ret = -1) ∧
    (∀ (a : σ) (ex : Thrown), E.getRAM a = .error ex →
      (ale_getRAMSize E (some a)).ret = -1) ∧
    (∀ (a : σ) (ex : Thrown), E.getFrameNumber a = .error ex →
      (ale_getFrameNumber E (some a)).ret = -1) ∧
    (∀ (a : σ) (ex : Thrown), E.getEpisodeFrameNumber a = .error ex →
      (ale_getEpisodeFrameNumber E (some a)).ret = -1) ∧
    (∀ (a : σ) (ex : Thrown), E.lives a = .error ex →
      (ale_lives E (some a)).ret = -1) ∧
    (∀ (a : σ) (ex : Thrown), E.getScreen a = .error ex →
      (ale_getScreenWidth E (some a)).ret = -1) ∧
    (∀ (a : σ) (ex : Thrown), E.getScreen a = .error ex →
      (ale_getScreenHeight E (some a)).ret = -1) ∧
    (∀ (a : σ) (memory_index : Nat) (ex : Thrown), E.getRAM a = .error ex →
      (ale_getRAM E (some a) memory_index).ret = 0) ∧
    (∀ (heap_ok : Bool) (a : σ) (include_rng : Bool) (ex : Thrown), E.cloneState a include_rng = .error ex →
      (ale_cloneState E heap_ok (some a) include_rng).ret = none) ∧
    (∀ (heap_ok : Bool) (a : σ) (ex : Thrown), E.cloneSystemState a = .error ex →
      (ale_cloneSystemState E heap_ok (some a)).ret = none) ∧
    (∀ (a : σ) (path : std_string) (ex : Thrown), E.createScreenExporter a path = .error ex →
      (ale_createScreenExporter E (some a) (some path)).ret = none) ∧
    (∀ (heap_ok : Bool) (ex : Thrown), E.ctor = .error ex →
      (ale_create E heap_ok).ret = none) ∧
    (∀ (heap_ok display_screen : Bool) (ex : Thrown), E.ctor = .error ex →
      (ale_create_with_display E heap_ok display_screen).ret = none) ∧
    (∀ (heap_ok display_screen : Bool) (a : σ) (ex : Thrown), E.ctor = .ok a →
      (E.setBool a key_display_screen display_screen).1 = .error ex →
      (ale_create_with_display E heap_ok display_screen).ret = none) := by
  refine ⟨?_, ?_, ?_, ?_, ?_, ?_, ?_, ?_, ?_, ?_, ?_, ?_, ?_, ?_, ?_, ?_, ?_, ?_, ?_, ?_, ?_, ?_, ?_, ?_, ?_, ?_⟩
  all_goals intros
  all_goals
    simp_all only [ale_getString, ale_getInt, ale_getFloat, ale_getBool, ale_act,
      ale_act_with_strength, ale_game_over, ale_game_truncated, ale_getLegalActionSet,
      ale_getMinimalActionSet, ale_getAvailableModes, ale_getAvailableDifficulties, ale_getAudio,
      ale_getRAMSize, ale_getFrameNumber, ale_getEpisodeFrameNumber, ale_lives,
      ale_getScreenWidth, ale_getScreenHeight, ale_getRAM, ale_cloneState, ale_cloneSystemState,
      ale_createScreenExporter, ale_create, ale_create_with_display]
  all_goals first | done | (split <;> simp_all) | (split <;> first | rfl | (split <;> simp_all))

/-- C8 on two engines: one every method of which throws, and one that
constructs but whose `setBool` throws. -/
theorem error_translation_witness :
    (ale_getString brokenEngine (some ()) (some [107]) none 0).ret = -1 ∧
    (ale_getInt brokenEngine (some ()) (some [107])).ret = INT_MIN ∧
    (ale_getFloat brokenEngine (some ()) (some [107])).ret = quiet_NaN ∧
    (ale_getBool brokenEngine (some ()) (some [107])).ret = false ∧
    (ale_act brokenEngine (some ()) 0).ret = quiet_NaN ∧
    (ale_act_with_strength brokenEngine (some ()) 0 ⟨0⟩).ret = quiet_NaN ∧
    (ale_game_over brokenEngine (some ()) false).ret = true ∧
    (ale_game_truncated brokenEngine (some ())).ret = false ∧
    (ale_getLegalActionSet brokenEngine (some ()) none 0).ret = -1 ∧
    (ale_getMinimalActionSet brokenEngine (some ()) none 0).ret = -1 ∧
    (ale_getAvailableModes brokenEngine (some ()) none 0).ret = -1 ∧
    (ale_getAvailableDifficulties brokenEngine (some ()) none 0).ret = -1 ∧
    (ale_getAudio brokenEngine (some ()) none 0).ret = -1 ∧
    (ale_getRAMSize brokenEngine (some ())).ret = -1 ∧
    (ale_getFrameNumber brokenEngine (some ())).ret = -1 ∧
    (ale_getEpisodeFrameNumber brokenEngine (some ())).ret = -1 ∧
    (ale_lives brokenEngine (some ())).ret = -1 ∧
    (ale_getScreenWidth brokenEngine (some ())).ret = -1 ∧
    (ale_getScreenHeight brokenEngine (some ())).ret = -1 ∧
    (ale_getRAM brokenEngine (some ()) 0).ret = 0 ∧
    (ale_cloneState brokenEngine true (some ()) false).ret = none ∧
    (ale_cloneSystemState brokenEngine true (some ())).ret = none ∧
    (ale_createScreenExporter brokenEngine (some ()) (some [112])).ret = none ∧
    (ale_create brokenEngine true).ret = none ∧
    (ale_create_with_display brokenEngine true true).ret = none ∧
    (ale_create_with_display halfBrokenEngine true true).ret = none := by
  obtain ⟨h1, h2, h3, h4, h5, h6, h7, h8, h9, h10, h11, h12, h13, h14, h15, h16, h17, h18, h19,
    h20, h21, h22, h23, h24, h25, _⟩ :=
    error_translation brokenEngine
  obtain ⟨_, _, _, _, _, _, _, _, _, _, _, _, _, _, _, _, _, _, _, _, _, _, _, _, _, h26⟩ :=
    error_translation halfBrokenEngine
  exact ⟨h1 () [107] none 0 _ rfl,
    h2 () [107] _ rfl,
    h3 () [107] _ rfl,
    h4 () [107] _ rfl,
    h5 () 0 _ rfl,
    h6 () 0 ⟨0⟩ _ rfl,
    h7 () false _ rfl,
    h8 () _ rfl,
    h9 () none 0 _ rfl,
    h10 () none 0 _ rfl,
    h11 () none 0 _ rfl,
    h12 () none 0 _ rfl,
    h13 () none 0 _ rfl,
    h14 () _ rfl,
    h15 () _ rfl,
    h16 () _ rfl,
    h17 () _ rfl,
    h18 () _ rfl,
    h19 () _ rfl,
    h20 () 0 _ rfl,
    h21 true () false _ rfl,
    h22 true () _ rfl,
    h23 () [112] _ rfl,
    h24 true _ rfl,
    h25 true true _ rfl,
    h26 true true () _ rfl rfl⟩

/-! ## C9: `ale_isSupportedROM` -/

/-- C9.  For every non-null path and non-null digest buffer of capacity at
least 33: if the engine reports the ROM as supported with a 32-character
digest `d` (32 characters, none of them NUL), the call returns `1` and the
buffer holds `d` followed by a NUL; if the engine reports it as not supported,
the call returns `0` and the buffer holds the empty string; if the engine
raises, the call returns `-1`.  If the path is null, the buffer is null or the
capacity is below 33, the call returns `-1` without calling the engine and
leaves the buffer untouched. -/
theorem isSupportedROM_result_codes (E : ALEInterface σ ς χ) (p : std_string)
    (buf : Mem c_char) (c : Nat) :
    (33 ≤ c → ∀ d : std_string, E.isSupportedROM p = .ok (some d) → d.length = 32 →
      (∀ x ∈ d, x ≠ 0) →
      (ale_isSupportedROM E (some p) (some buf) c).ret = 1 ∧
      ∃ m, (ale_isSupportedROM E (some p) (some buf) c).buffer = some m ∧
        (∀ (i : Nat) (h : i < d.length), m i = d[i]) ∧ m 32 = 0) ∧
    (33 ≤ c → E.isSupportedROM p = .ok none →
      (ale_isSupportedROM E (some p) (some buf) c).ret = 0 ∧
      ∃ m, (ale_isSupportedROM E (some p) (some buf) c).buffer = some m ∧ m 0 = 0) ∧
    (33 ≤ c → ∀ ex : Thrown, E.isSupportedROM p = .error ex →
      (ale_isSupportedROM E (some p) (some buf) c).ret = -1) ∧
    (∀ (out : Option (Mem c_char)) (n : Nat),
      ale_isSupportedROM E none out n = ⟨-1, none, out, [], []⟩) ∧
    (∀ n : Nat, ale_isSupportedROM E (some p) none n = ⟨-1, none, none, [], []⟩) ∧
    (c < 33 → ale_isSupportedROM E (some p) (some buf) c = ⟨-1, none, some buf, [], []⟩) := by
  refine ⟨?_, ?_, ?_, fun _ _ => rfl, fun _ => rfl, ?_⟩
  · intro hc d hd hlen hnul
    have h33 : ¬ (c < 33) := by omega
    have hgt : c > d.length := by omega
    have hmin : min (c - 1) d.length = 32 := by omega
    simp only [ale_isSupportedROM, if_neg h33, hd, if_pos hgt, hmin]
    refine ⟨trivial, _, rfl, ?_, ?_⟩
    · intro i hi
      simp only [Mem.store, strncpy, strlen_of_no_nul d hnul]
      rw [if_neg (by omega), if_pos (by omega), if_pos hi, getD_eq_getElem _ _ _ hi]
    · simp only [Mem.store, if_true]
  · intro hc hd
    have h33 : ¬ (c < 33) := by omega
    simp only [ale_isSupportedROM, if_neg h33, hd]
    exact ⟨trivial, _, rfl, by simp only [Mem.store, if_true]⟩
  · intro hc ex hd
    have h33 : ¬ (c < 33) := by omega
    simp only [ale_isSupportedROM, if_neg h33, hd]
  · intro hc
    simp only [ale_isSupportedROM, if_pos hc]

/-- C9 on the example engines: a supported ROM with the digest of 32 letters
`a`, the empty path, which is not supported, an engine that raises, and a
buffer of capacity 32. -/
theorem isSupportedROM_result_codes_witness :
    ((ale_isSupportedROM simEngine (some [114]) (some (fill 1)) 33).ret = 1 ∧
      ∃ m, (ale_isSupportedROM simEngine (some [114]) (some (fill 1)) 33).buffer = some m ∧
        (∀ (i : Nat) (h : i < (List.replicate 32 (97 : c_char)).length),
          m i = (List.replicate 32 (97 : c_char))[i]) ∧ m 32 = 0) ∧
    ((ale_isSupportedROM simEngine (some []) (some (fill 1)) 33).ret = 0 ∧
      ∃ m, (ale_isSupportedROM simEngine (some []) (some (fill 1)) 33).buffer = some m ∧
        m 0 = 0) ∧
    (ale_isSupportedROM brokenEngine (some [114]) (some (fill 1)) 33).ret = -1 ∧
    ale_isSupportedROM simEngine (some [114]) (some (fill 1)) 32
      = ⟨-1, none, some (fill 1), [], []⟩ :=
  ⟨(isSupportedROM_result_codes simEngine [114] (fill 1) 33).1 (by decide)
      (List.replicate 32 97) rfl rfl
      (fun x hx => by rw [List.eq_of_mem_replicate hx]; decide),
    (isSupportedROM_result_codes simEngine [] (fill 1) 33).2.1 (by decide) rfl,
    (isSupportedROM_result_codes brokenEngine [114] (fill 1) 33).2.2.1 (by decide) _ rfl,
    (isSupportedROM_result_codes simEngine [114] (fill 1) 32).2.2.2.2.2 (by decide)⟩

/-! ## C10: the full-state pair -/

/-- C10.  The full-state pair is an alias of capture and restore with
randomness included: for every non-null engine, `ale_cloneSystemState(ale)`
returns the same snapshot handle as `ale_cloneState(ale, true)`, with the same
engine left behind and the same diagnostics; and for every engine handle and
snapshot handle, `ale_restoreSystemState(ale, s)` is `ale_restoreState(ale, s)`:
the same return value and the same effect on the engine. -/
theorem full_state_pair_is_alias (E : ALEInterface σ ς χ) :
    (∀ (heap_ok : Bool) (a : σ),
      (ale_cloneSystemState E heap_ok (some a)).ret
        = (ale_cloneState E heap_ok (some a) true).ret ∧
      (ale_cloneSystemState E heap_ok (some a)).engine
        = (ale_cloneState E heap_ok (some a) true).engine ∧
      (ale_cloneSystemState E heap_ok (some a)).stderr
        = (ale_cloneState E heap_ok (some a) true).stderr) ∧
    (∀ (ale : Option σ) (s : Option ς),
      ale_restoreSystemState E ale s = ale_restoreState E ale s) := by
  refine ⟨fun heap_ok a => ?_, fun _ _ => rfl⟩
  simp only [ale_cloneSystemState, ale_cloneState, ALEInterface.cloneSystemState]
  cases E.cloneState a true <;> exact ⟨rfl, rfl, rfl⟩

/-! ## C11: reading a byte of RAM -/

/-- C11.  For every non-null engine with RAM of size `n`, `ale_getRAM(ale, i)`
returns the engine's RAM byte at index `i`, the value of `ram.get(i)`, when
`i < n`; when `i ≥ n` it returns the default `0` without reading the RAM: the
whole outcome is fixed, whatever the engine's accessor would yield at that
index.  The engine is the same after the call. -/
theorem getRAM_bounds_checked (E : ALEInterface σ ς χ) (a : σ) (ram : ALERAM)
    (hr : E.getRAM a = .ok ram) (i : Nat) :
    (i < ram.size → (ale_getRAM E (some a) i).ret = ram.get i) ∧
    (ram.size ≤ i → ale_getRAM E (some a) i = ⟨0, some a, none, [.getRAM], []⟩) ∧
    (ale_getRAM E (some a) i).engine = some a := by
  refine ⟨fun h => ?_, fun h => ?_, ?_⟩
  · simp only [ale_getRAM, hr, if_pos h]
  · have hn : ¬ (i < ram.size) := by omega
    simp only [ale_getRAM, hr, if_neg hn]
  · simp only [ale_getRAM, hr]
    split <;> rfl

/-- C11 on the example engine, whose RAM is `5, 6, 7, 8`: index 2 reads `7`;
index 4, where the engine's accessor would yield `255`, reads the default `0`. -/
theorem getRAM_bounds_checked_witness :
    (ale_getRAM simEngine (some sim0) 2).ret = 7 ∧
    (ALERAM.ofList [5, 6, 7, 8]).get 4 = 255 ∧
    ale_getRAM simEngine (some sim0) 4 = ⟨0, some sim0, none, [.getRAM], []⟩ :=
  ⟨(getRAM_bounds_checked simEngine sim0 (ALERAM.ofList [5, 6, 7, 8]) rfl 2).1 (by decide),
    by decide,
    (getRAM_bounds_checked simEngine sim0 (ALERAM.ofList [5, 6, 7, 8]) rfl 4).2.1 (by decide)⟩

/-! ## C12: the header's `-1` for an index out of bounds -/

/-- C12, the code at the failing input: the example engine has four bytes of
RAM, the byte at index 0 is set to `0`, and `ale_getRAM` returns `0` both for
the index 4, which is out of bounds, and for the valid index 0; the header
documents `-1` (the byte 255) for an index out of bounds. -/
theorem getRAM_out_of_bounds_returns_zero :
    simEngine.getRAM sim0 = .ok (ALERAM.ofList [5, 6, 7, 8]) ∧
    (ale_getRAM simEngine (some sim0) 4).ret = 0 ∧
    (ale_getRAM simEngine (some sim0) 4).ret ≠ 255 ∧
    (ale_getRAM simEngine (ale_setRAM simEngine (some sim0) 0 0).engine 0).ret
      = (ale_getRAM simEngine (some sim0) 4).ret := by
  refine ⟨rfl, ?_, ?_, ?_⟩ <;> decide

/-! ## C13: writing a byte of RAM -/

theorem ofList_set (l : List byte_t) (i : Nat) (v : byte_t) (h : i < l.length) :
    ALERAM.ofList (l.set i v) = (ALERAM.ofList l).set i v := by
  simp only [ALERAM.ofList, ALERAM.set, List.length_set, ALERAM.mk.injEq, true_and]
  funext j
  by_cases hj : j = i
  · subst hj
    simp [List.getD, h]
  · have hne : i ≠ j := fun e => hj e.symm
    simp [List.getD, List.getElem?_set, hne, hj]

theorem simEngine_setRAM_checked : setRAM_checked simEngine := by
  intro a ram i v hr
  have hram : ALERAM.ofList a.ram = ram := by
    simp only [simEngine, Except.ok.injEq] at hr
    exact hr
  subst hram
  constructor
  · intro h
    have hn : ¬ (i < a.ram.length) := by
      simp only [ALERAM.ofList] at h
      omega
    simp only [simEngine, if_neg hn]
    exact ⟨⟨_, rfl⟩, trivial⟩
  · intro h
    have hi : i < a.ram.length := by
      simp only [ALERAM.ofList] at h
      exact h
    simp only [simEngine, if_pos hi, ofList_set a.ram i v hi]
    exact ⟨trivial, trivial⟩

/-- C13.  On an engine whose `setRAM` checks its index, as the spec has it:
for every non-null engine with RAM of size `n`, every index `i ≥ n` and every
byte `v`, `ale_setRAM(ale, i, v)` returns `-1` and leaves the engine's RAM
unchanged; for `i < n` it returns `0` and afterwards `ale_getRAM(ale, i) = v`. -/
theorem setRAM_bounds (E : ALEInterface σ ς χ) (hE : setRAM_checked E) (a : σ)
    (ram : ALERAM) (hr : E.getRAM a = .ok ram) (i : Nat) (v : byte_t) :
    (ram.size ≤ i →
      (ale_setRAM E (some a) i v).ret = -1 ∧
      ∃ a1, (ale_setRAM E (some a) i v).engine = some a1 ∧ E.getRAM a1 = .ok ram) ∧
    (i < ram.size →
      (ale_setRAM E (some a) i v).ret = 0 ∧
      (ale_getRAM E (ale_setRAM E (some a) i v).engine i).ret = v) := by
  obtain ⟨hout, hin⟩ := hE a ram i v hr
  constructor
  · intro h
    obtain ⟨⟨ex, hex⟩, hkeep⟩ := hout h
    rcases hs : E.setRAM a i v with ⟨r, a1⟩
    rw [hs] at hex hkeep
    simp only at hex hkeep
    subst hex
    simp only [ale_setRAM, hs]
    exact ⟨trivial, a1, rfl, hkeep⟩
  · intro h
    obtain ⟨hok, hset⟩ := hin h
    rcases hs : E.setRAM a i v with ⟨r, a1⟩
    rw [hs] at hok hset
    simp only at hok hset
    subst hok
    have hlen : i < (ram.set i v).size := h
    simp only [ale_setRAM, hs, ale_getRAM, hset, if_pos hlen, true_and]
    simp only [ALERAM.set, if_true]

/-- C13 on the example engine, whose RAM is `5, 6, 7, 8`: a write at index 4 is
refused and a write of `9` at index 2 is read back. -/
theorem setRAM_bounds_witness :
    ((ale_setRAM simEngine (some sim0) 4 9).ret = -1 ∧
      ∃ a1, (ale_setRAM simEngine (some sim0) 4 9).engine = some a1 ∧
        simEngine.getRAM a1 = .ok (ALERAM.ofList [5, 6, 7, 8])) ∧
    ((ale_setRAM simEngine (some sim0) 2 9).ret = 0 ∧
      (ale_getRAM simEngine (ale_setRAM simEngine (some sim0) 2 9).engine 2).ret = 9) :=
  ⟨(setRAM_bounds simEngine simEngine_setRAM_checked sim0 (ALERAM.ofList [5, 6, 7, 8]) rfl 4
      9).1 (by decide),
    (setRAM_bounds simEngine simEngine_setRAM_checked sim0 (ALERAM.ofList [5, 6, 7, 8]) rfl 2
      9).2
      (by decide)⟩

/-! ## C14: integer codes passed to the engine -/

/-- C14, the claim as stated fails: the example engine has the legal actions
`0, 1, 3`, the modes `0, 4` and the difficulty `1`, and the codes 999, 99 and
77 are none of them; yet `ale_act` and `ale_act_with_strength` pass 999 to the
engine and return its reward, not NaN, and `ale_setMode` and
`ale_setDifficulty` pass 99 and 77 to the engine and return `0`, not `-1`. -/
theorem out_of_range_code_reaches_engine :
    simEngine.getLegalActionSet sim0 = .ok [0, 1, 3] ∧
    simEngine.getAvailableModes sim0 = .ok [0, 4] ∧
    simEngine.getAvailableDifficulties sim0 = .ok [1] ∧
    (ale_act simEngine (some sim0) 999).calls = [.act 999] ∧
    (ale_act simEngine (some sim0) 999).ret = ⟨0⟩ ∧
    (ale_act simEngine (some sim0) 999).ret.isNaN = false ∧
    (ale_act_with_strength simEngine (some sim0) 999 ⟨0⟩).calls = [.act_strength 999 ⟨0⟩] ∧
    (ale_act_with_strength simEngine (some sim0) 999 ⟨0⟩).ret.isNaN = false ∧
    (ale_setMode simEngine (some sim0) 99).calls = [.setMode 99] ∧
    (ale_setMode simEngine (some sim0) 99).ret = 0 ∧
    (ale_setDifficulty simEngine (some sim0) 77).calls = [.setDifficulty 77] ∧
    (ale_setDifficulty simEngine (some sim0) 77).ret = 0 := by
  refine ⟨rfl, rfl, rfl, ?_, ?_, ?_, ?_, ?_, ?_, ?_, ?_, ?_⟩ <;> decide

/-- C14, amended.  For every non-null engine and every integer argument,
`ale_act`, `ale_act_with_strength`, `ale_setMode` and `ale_setDifficulty` do no
validation at the boundary: each calls its engine method exactly once, with the
integer as it came in, and leaves behind the engine that call leaves; the
operation returns its failure sentinel (NaN, resp. `-1`) when that engine call
raises, and the engine's reward, resp. `0`, when it completes. -/
theorem codes_passed_unvalidated (E : ALEInterface σ ς χ) (a : σ) (code : Int)
    (paddle_strength : c_float) :
    ((ale_act E (some a) code).calls = [.act code] ∧
      (ale_act E (some a) code).engine = some (E.act a code).2 ∧
      (ale_act E (some a) code).ret =
        match (E.act a code).1 with
        | .ok reward => reward
        | .error _ => quiet_NaN) ∧
    ((ale_act_with_strength E (some a) code paddle_strength).calls
        = [.act_strength code paddle_strength] ∧
      (ale_act_with_strength E (some a) code paddle_strength).engine
        = some (E.act_strength a code paddle_strength).2 ∧
      (ale_act_with_strength E (some a) code paddle_strength).ret =
        match (E.act_strength a code paddle_strength).1 with
        | .ok reward => reward
        | .error _ => quiet_NaN) ∧
    ((ale_setMode E (some a) code).calls = [.setMode code] ∧
      (ale_setMode E (some a) code).engine = some (E.setMode a code).2 ∧
      (ale_setMode E (some a) code).ret =
        match (E.setMode a code).1 with
        | .ok _ => 0
        | .error _ => -1) ∧
    ((ale_setDifficulty E (some a) code).calls = [.setDifficulty code] ∧
      (ale_setDifficulty E (some a) code).engine = some (E.setDifficulty a code).2 ∧
      (ale_setDifficulty E (some a) code).ret =
        match (E.setDifficulty a code).1 with
        | .ok _ => 0
        | .error _ => -1) := by
  refine ⟨?_, ?_, ?_, ?_⟩
  · rcases h : E.act a code with ⟨_ | _, a1⟩ <;> simp only [ale_act, h] <;>
      exact ⟨trivial, trivial, trivial⟩
  · rcases h : E.act_strength a code paddle_strength with ⟨_ | _, a1⟩ <;>
      simp only [ale_act_with_strength, h] <;> exact ⟨trivial, trivial, trivial⟩
  · rcases h : E.setMode a code with ⟨_ | _, a1⟩ <;> simp only [ale_setMode, h] <;>
      exact ⟨trivial, trivial, trivial⟩
  · rcases h : E.setDifficulty a code with ⟨_ | _, a1⟩ <;> simp only [ale_setDifficulty, h] <;>
      exact ⟨trivial, trivial, trivial⟩

/-! ## C15: all or nothing -/

/-- C15, the claim as stated fails: on an engine whose audio sequence has
`2^31` bytes, `ale_getAudio` returns `INT_MIN`, not the number of bytes. -/
theorem audio_count_wraps_beyond_int :
    simEngine.getAudio simHuge = .ok (List.replicate 2147483648 0) ∧
    (List.replicate 2147483648 (0 : byte_t)).length = 2147483648 ∧
    (ale_getAudio simEngine (some simHuge) none 0).ret = -2147483648 := by
  refine ⟨?_, List.length_replicate _ _, ?_⟩
  · simp only [simEngine, simHuge]
  · simp only [ale_getAudio, simEngine, simHuge, List.length_replicate]
    exact static_cast_int_two_pow_31

/-- C15, amended.  For each of `ale_getAvailableModes`,
`ale_getAvailableDifficulties`, `ale_getLegalActionSet`,
`ale_getMinimalActionSet` and `ale_getAudio`, and every non-null engine whose
sequence has `n` elements and whose query does not raise: the return value is
`n` converted to `int`, regardless of the destination and the capacity, which
is `n` itself when `n ≤ INT_MAX`; a non-null destination of capacity at least
`n` has exactly its indices `0..n-1` set, to the engine's sequence in order,
and every index `≥ n` keeps its prior value; and with a null destination, or a
capacity below `n`, no element is written (there is no partial copy). -/
theorem all_or_nothing_fill (E : ALEInterface σ ς χ) (a : σ) :
    (∀ L : List Int, E.getAvailableModes a = .ok L →
      AllOrNothing (ale_getAvailableModes E (some a)) L) ∧
    (∀ L : List Int, E.getAvailableDifficulties a = .ok L →
      AllOrNothing (ale_getAvailableDifficulties E (some a)) L) ∧
    (∀ L : List Int, E.getLegalActionSet a = .ok L →
      AllOrNothing (ale_getLegalActionSet E (some a)) L) ∧
    (∀ L : List Int, E.getMinimalActionSet a = .ok L →
      AllOrNothing (ale_getMinimalActionSet E (some a)) L) ∧
    (∀ A : List byte_t, E.getAudio a = .ok A → AllOrNothing (ale_getAudio E (some a)) A) := by
  refine ⟨?_, ?_, ?_, ?_, ?_⟩
  · intro L h
    refine ⟨fun dst c => ?_, fun buf c hc => ?_, fun buf c hc => ?_, fun c => ?_⟩
    · simp only [ale_getAvailableModes, h]
      exact ⟨trivial, fun hK => static_cast_int_of_le _ hK⟩
    · simp only [ale_getAvailableModes, h, if_pos (show c ≥ L.length from hc)]
      refine ⟨_, rfl, fun i hi => ?_, fun i hi => ?_⟩
      · rw [copy_loop_apply, if_pos hi, getD_eq_getElem]
      · rw [copy_loop_apply, if_neg (by omega)]
    · simp only [ale_getAvailableModes, h, if_neg (show ¬ (c ≥ L.length) by omega)]
    · simp only [ale_getAvailableModes, h]
  · intro L h
    refine ⟨fun dst c => ?_, fun buf c hc => ?_, fun buf c hc => ?_, fun c => ?_⟩
    · simp only [ale_getAvailableDifficulties, h]
      exact ⟨trivial, fun hK => static_cast_int_of_le _ hK⟩
    · simp only [ale_getAvailableDifficulties, h, if_pos (show c ≥ L.length from hc)]
      refine ⟨_, rfl, fun i hi => ?_, fun i hi => ?_⟩
      · rw [copy_loop_apply, if_pos hi, getD_eq_getElem]
      · rw [copy_loop_apply, if_neg (by omega)]
    · simp only [ale_getAvailableDifficulties, h, if_neg (show ¬ (c ≥ L.length) by omega)]
    · simp only [ale_getAvailableDifficulties, h]
  · intro L h
    refine ⟨fun dst c => ?_, fun buf c hc => ?_, fun buf c hc => ?_, fun c => ?_⟩
    · simp only [ale_getLegalActionSet, h]
      exact ⟨trivial, fun hK => static_cast_int_of_le _ hK⟩
    · simp only [ale_getLegalActionSet, h, if_pos (show c ≥ L.length from hc)]
      refine ⟨_, rfl, fun i hi => ?_, fun i hi => ?_⟩
      · rw [copy_loop_apply, if_pos hi, getD_eq_getElem]
      · rw [copy_loop_apply, if_neg (by omega)]
    · simp only [ale_getLegalActionSet, h, if_neg (show ¬ (c ≥ L.length) by omega)]
    · simp only [ale_getLegalActionSet, h]
  · intro L h
    refine ⟨fun dst c => ?_, fun buf c hc => ?_, fun buf c hc => ?_, fun c => ?_⟩
    · simp only [ale_getMinimalActionSet, h]
      exact ⟨trivial, fun hK => static_cast_int_of_le _ hK⟩
    · simp only [ale_getMinimalActionSet, h, if_pos (show c ≥ L.length from hc)]
      refine ⟨_, rfl, fun i hi => ?_, fun i hi => ?_⟩
      · rw [copy_loop_apply, if_pos hi, getD_eq_getElem]
      · rw [copy_loop_apply, if_neg (by omega)]
    · simp only [ale_getMinimalActionSet, h, if_neg (show ¬ (c ≥ L.length) by omega)]
    · simp only [ale_getMinimalActionSet, h]
  · intro A h
    refine ⟨fun dst c => ?_, fun buf c hc => ?_, fun buf c hc => ?_, fun c => ?_⟩
    · simp only [ale_getAudio, h]
      exact ⟨trivial, fun hK => static_cast_int_of_le _ hK⟩
    · simp only [ale_getAudio, h, if_pos (show c ≥ A.length from hc)]
      refine ⟨_, rfl, fun i hi => ?_, fun i hi => ?_⟩
      · simp only [memcpy]
        rw [if_pos hi, getD_eq_getElem _ _ _ hi]
      · simp only [memcpy]
        rw [if_neg (by omega)]
    · simp only [ale_getAudio, h, if_neg (show ¬ (c ≥ A.length) by omega)]
    · simp only [ale_getAudio, h]

/-- C15, amended, on the example engine: two modes, one difficulty, three legal
and two minimal actions and three audio bytes. -/
theorem all_or_nothing_fill_witness :
    AllOrNothing (ale_getAvailableModes simEngine (some sim0)) [0, 4] ∧
    AllOrNothing (ale_getAvailableDifficulties simEngine (some sim0)) [1] ∧
    AllOrNothing (ale_getLegalActionSet simEngine (some sim0)) [0, 1, 3] ∧
    AllOrNothing (ale_getMinimalActionSet simEngine (some sim0)) [0, 3] ∧
    AllOrNothing (ale_getAudio simEngine (some sim0)) [7, 8, 9] :=
  ⟨(all_or_nothing_fill simEngine sim0).1 [0, 4] rfl,
    (all_or_nothing_fill simEngine sim0).2.1 [1] rfl,
    (all_or_nothing_fill simEngine sim0).2.2.1 [0, 1, 3] rfl,
    (all_or_nothing_fill simEngine sim0).2.2.2.1 [0, 3] rfl,
    (all_or_nothing_fill simEngine sim0).2.2.2.2 [7, 8, 9] rfl⟩

/-! ## C16: the digest buffer of `ale_isSupportedROM` -/

/-- C16, the claim as stated fails: with the capacity `c = 33` and the example
engine's digest of `L = 32` characters, so that `L < c`, the call returns `1`
and the byte at index `c - 1 = 32`, which held `1`, holds NUL afterwards: it is
not left unchanged. -/
theorem terminator_lands_on_last_byte :
    simEngine.isSupportedROM [114] = .ok (some (List.replicate 32 97)) ∧
    (List.replicate 32 (97 : c_char)).length = 32 ∧
    (ale_isSupportedROM simEngine (some [114]) (some (fill 1)) 33).ret = 1 ∧
    (fill (1 : c_char)) (33 - 1) = 1 ∧
    (ale_isSupportedROM simEngine (some [114]) (some (fill 1)) 33).buffer.map
      (fun m => m (33 - 1)) = some 0 := by
  refine ⟨rfl, rfl, ?_, rfl, ?_⟩
  · decide
  · rfl

/-- C16, amended.  For non-null arguments, a capacity `c ≥ 33` and an engine
digest `d` of `L` characters, none of them NUL: if `L < c` the call returns
`1`, sets `buffer[0..L) = d`, sets every byte in `buffer[L..c-1)` to NUL and
sets `buffer[L]` to NUL, so that `buffer[c-1]` is left unchanged when
`L < c - 1` and becomes NUL when `L = c - 1`; if `L ≥ c` (NUL or not) the call
returns `-1` and sets only `buffer[0]`, to NUL; in both cases every index
`≥ c` keeps its value. -/
theorem isSupportedROM_buffer_effect (E : ALEInterface σ ς χ) (p : std_string)
    (buf : Mem c_char) (c : Nat) (d : std_string) (hc : 33 ≤ c)
    (hd : E.isSupportedROM p = .ok (some d)) :
    (d.length < c → (∀ x ∈ d, x ≠ 0) →
      (ale_isSupportedROM E (some p) (some buf) c).ret = 1 ∧
      ∃ m, (ale_isSupportedROM E (some p) (some buf) c).buffer = some m ∧
        (∀ (i : Nat) (h : i < d.length), m i = d[i]) ∧
        (∀ i : Nat, d.length ≤ i → i < c - 1 → m i = 0) ∧
        m d.length = 0 ∧
        (d.length < c - 1 → m (c - 1) = buf (c - 1)) ∧
        (d.length = c - 1 → m (c - 1) = 0) ∧
        ∀ i : Nat, c ≤ i → m i = buf i) ∧
    (c ≤ d.length →
      (ale_isSupportedROM E (some p) (some buf) c).ret = -1 ∧
      ∃ m, (ale_isSupportedROM E (some p) (some buf) c).buffer = some m ∧
        m 0 = 0 ∧ ∀ i : Nat, 0 < i → m i = buf i) := by
  have h33 : ¬ (c < 33) := by omega
  constructor
  · intro hlt hnul
    have hgt : c > d.length := hlt
    have hmin : min (c - 1) d.length = d.length := by omega
    have hlen := strlen_of_no_nul d hnul
    simp only [ale_isSupportedROM, if_neg h33, hd, if_pos hgt, hmin]
    refine ⟨trivial, _, rfl, ?_, ?_, ?_, ?_, ?_, ?_⟩
    · intro i hi
      simp only [Mem.store, strncpy, hlen]
      rw [if_neg (by omega), if_pos (by omega), if_pos hi, getD_eq_getElem _ _ _ hi]
    · intro i hi hic
      simp only [Mem.store, strncpy, hlen]
      by_cases hil : i = d.length
      · rw [if_pos hil]
      · rw [if_neg hil, if_pos hic, if_neg (by omega)]
    · simp only [Mem.store, if_true]
    · intro hl
      simp only [Mem.store, strncpy]
      rw [if_neg (by omega), if_neg (by omega)]
    · intro hl
      simp only [Mem.store]
      rw [if_pos hl.symm]
    · intro i hi
      simp only [Mem.store, strncpy]
      rw [if_neg (by omega), if_neg (by omega)]
  · intro hge
    have hgt : ¬ (c > d.length) := by omega
    simp only [ale_isSupportedROM, if_neg h33, hd, if_neg hgt]
    refine ⟨trivial, _, rfl, ?_, ?_⟩
    · simp only [Mem.store, if_true]
    · intro i hi
      simp only [Mem.store]
      rw [if_neg (by omega)]

/-- C16, amended, on the example engines: the digest of 32 letters with the
capacity 40, and the digest of 40 letters with the capacity 33. -/
theorem isSupportedROM_buffer_effect_witness :
    ((ale_isSupportedROM simEngine (some [114]) (some (fill 1)) 40).ret = 1 ∧
      ∃ m, (ale_isSupportedROM simEngine (some [114]) (some (fill 1)) 40).buffer = some m ∧
        (∀ (i : Nat) (h : i < (List.replicate 32 (97 : c_char)).length),
          m i = (List.replicate 32 (97 : c_char))[i]) ∧
        (∀ i : Nat, (List.replicate 32 (97 : c_char)).length ≤ i → i < 40 - 1 → m i = 0) ∧
        m (List.replicate 32 (97 : c_char)).length = 0 ∧
        ((List.replicate 32 (97 : c_char)).length < 40 - 1 → m (40 - 1) = fill 1 (40 - 1)) ∧
        ((List.replicate 32 (97 : c_char)).length = 40 - 1 → m (40 - 1) = 0) ∧
        ∀ i : Nat, 40 ≤ i → m i = fill 1 i) ∧
    ((ale_isSupportedROM longDigestEngine (some [114]) (some (fill 1)) 33).ret = -1 ∧
      ∃ m, (ale_isSupportedROM longDigestEngine (some [114]) (some (fill 1)) 33).buffer
          = some m ∧
        m 0 = 0 ∧ ∀ i : Nat, 0 < i → m i = fill 1 i) :=
  ⟨(isSupportedROM_buffer_effect simEngine [114] (fill 1) 40 (List.replicate 32 97)
      (by decide) rfl).1 (by decide)
      (fun x hx => by rw [List.eq_of_mem_replicate hx]; decide),
    (isSupportedROM_buffer_effect longDigestEngine [114] (fill 1) 33 (List.replicate 40 97)
      (by decide) rfl).2 (by decide)⟩

end ALE
